import Mathlib

/-!
# Anti-Raid/Discord : `discord/utils.go`

A shallow embedding of the three functions of `discord/utils.go`

* `getImageMimeType`      (image format sniffing by magic bytes),
* `bytesToBase64Data`     (data-URI encoding),
* `multipartBodyWithJSON` (multipart/form-data request bodies),

together with the parts of the Go standard library they call
(`bytes.Equal`, slice expressions, `encoding/base64`, `strings.Replacer`,
`mime/multipart`, `io.Copy`), and the properties proved about them.

Conventions of the embedding:

* a Go `[]byte` and a Go `string` are both byte sequences, modelled as
  `List Nat` (`Bytes`); a byte buffer is modelled with capacity equal to its
  length, so a slice expression `data[lo:hi]` is in range exactly when
  `lo ≤ hi ≤ len(data)`;
* a Go run-time panic is the outer `none` of an `Option`;
* a Go `(value, error)` result is a pair whose second component is
  `none` for a `nil` error.
-/

namespace Discord

/-! ## Bytes, strings and errors -/

/-- Byte sequences: Go `[]byte` values and Go `string` values. -/
abbrev Bytes := List Nat

/-- The byte sequence of an ASCII string literal of the source. -/
def ascii (s : String) : Bytes := s.data.map Char.toNat

/-- Go `error` values met in `utils.go`: the package sentinel
`ErrUnsupportedImageType`, errors built by `fmt.Errorf` with a `%w` verb
(`wrapf`), errors built by `fmt.Errorf` without one (`errorf`), and errors
handed in by collaborators such as `json.Marshal` or an `io.Reader`
(`external`). -/
inductive Err where
  | unsupportedImageType : Err
  | external : String → Err
  | errorf : String → Err
  | wrapf : String → Err → Err
  deriving DecidableEq, Repr

/-- The package sentinel `ErrUnsupportedImageType`. -/
def ErrUnsupportedImageType : Err := Err.unsupportedImageType

/-- Go `errors.Unwrap`: the error wrapped by a `%w` verb, if any. -/
def Err.unwrap : Err → Option Err
  | Err.wrapf _ inner => some inner
  | _ => none

/-- Go `bytes.Equal`: same length and same bytes. -/
def bytesEqual (a b : Bytes) : Bool := decide (a = b)

/-- The Go slice expression `data[lo:hi]` on a buffer whose capacity is its
length: `none` is the run-time panic "slice bounds out of range". -/
def sliceExpr (data : Bytes) (lo hi : Nat) : Option Bytes :=
  if lo ≤ hi ∧ hi ≤ data.length then some ((data.take hi).drop lo) else none

/-- The expression `bytes.Equal(data[lo:hi], pat)`; it panics when the slice
expression does. -/
def sliceEqual (data : Bytes) (lo hi : Nat) (pat : Bytes) : Option Bool :=
  (sliceExpr data lo hi).map (fun s => bytesEqual s pat)

/-- Go `a || b` with short-circuit evaluation: `b` is evaluated (and may
panic) only when `a` evaluated to `false`. -/
def orElse (a b : Option Bool) : Option Bool :=
  match a with
  | none => none
  | some true => some true
  | some false => b

/-- Go `a && b` with short-circuit evaluation: `b` is evaluated (and may
panic) only when `a` evaluated to `true`. -/
def andThen (a b : Option Bool) : Option Bool :=
  match a with
  | none => none
  | some false => some false
  | some true => b

/-! ## `getImageMimeType` -/

/-- The condition of the first `case` of `getImageMimeType` (PNG). -/
def casePNG (data : Bytes) : Option Bool :=
  sliceEqual data 0 8 [137, 80, 78, 71, 13, 10, 26, 10]

/-- The condition of the second `case` of `getImageMimeType` (JPEG). -/
def caseJPEG (data : Bytes) : Option Bool :=
  orElse (sliceEqual data 0 3 [255, 216, 255])
    (orElse (sliceEqual data 6 10 (ascii "JFIF"))
      (sliceEqual data 6 10 (ascii "Exif")))

/-- The condition of the third `case` of `getImageMimeType` (GIF). -/
def caseGIF (data : Bytes) : Option Bool :=
  orElse (sliceEqual data 0 6 [71, 73, 70, 56, 55, 97])
    (sliceEqual data 0 6 [71, 73, 70, 56, 57, 97])

/-- The condition of the fourth `case` of `getImageMimeType` (WEBP). -/
def caseWEBP (data : Bytes) : Option Bool :=
  andThen (sliceEqual data 0 4 (ascii "RIFF"))
    (sliceEqual data 8 12 (ascii "WEBP"))

/-- Go `getImageMimeType`: the tagless `switch` evaluates its case conditions
from top to bottom and runs the first one that is `true`; a panic in a
condition aborts the call. -/
def getImageMimeType (data : Bytes) : Option (Bytes × Option Err) :=
  match casePNG data with
  | none => none
  | some true => some (ascii "image/png", none)
  | some false =>
    match caseJPEG data with
    | none => none
    | some true => some (ascii "image/jpeg", none)
    | some false =>
      match caseGIF data with
      | none => none
      | some true => some (ascii "image/gif", none)
      | some false =>
        match caseWEBP data with
        | none => none
        | some true => some (ascii "image/webp", none)
        | some false => some ([], some ErrUnsupportedImageType)

/-! ### The signature table, in the words of the specification -/

/-- The bytes of `data` from offset `off` on are `pat`
("bytes off .. off+len(pat)-1 equal pat"). -/
def hasAt (data : Bytes) (off : Nat) (pat : Bytes) : Prop :=
  pat <+: data.drop off

instance (data : Bytes) (off : Nat) (pat : Bytes) : Decidable (hasAt data off pat) := by
  unfold hasAt; infer_instance

/-- The four supported image formats. -/
inductive Format where
  | png | jpeg | gif | webp
  deriving DecidableEq, Repr

/-- PNG signature: bytes 0-7 equal `89 50 4E 47 0D 0A 1A 0A`. -/
def isPNG (d : Bytes) : Prop :=
  hasAt d 0 [0x89, 0x50, 0x4E, 0x47, 0x0D, 0x0A, 0x1A, 0x0A]

/-- JPEG signature: bytes 0-2 equal `FF D8 FF`, or bytes 6-9 equal `JFIF`,
or bytes 6-9 equal `Exif`. -/
def isJPEG (d : Bytes) : Prop :=
  hasAt d 0 [0xFF, 0xD8, 0xFF] ∨ hasAt d 6 (ascii "JFIF") ∨ hasAt d 6 (ascii "Exif")

/-- GIF signature: bytes 0-5 equal `GIF87a` or `GIF89a`. -/
def isGIF (d : Bytes) : Prop :=
  hasAt d 0 (ascii "GIF87a") ∨ hasAt d 0 (ascii "GIF89a")

/-- WEBP signature: bytes 0-3 equal `RIFF` and bytes 8-11 equal `WEBP`. -/
def isWEBP (d : Bytes) : Prop :=
  hasAt d 0 (ascii "RIFF") ∧ hasAt d 8 (ascii "WEBP")

instance (d : Bytes) : Decidable (isPNG d) := by unfold isPNG; infer_instance

instance (d : Bytes) : Decidable (isJPEG d) := by unfold isJPEG; infer_instance

instance (d : Bytes) : Decidable (isGIF d) := by unfold isGIF; infer_instance

instance (d : Bytes) : Decidable (isWEBP d) := by unfold isWEBP; infer_instance

/-- The signature of each format, as the specification lists them. -/
def matchesSignature : Format → Bytes → Prop
  | Format.png, d => isPNG d
  | Format.jpeg, d => isJPEG d
  | Format.gif, d => isGIF d
  | Format.webp, d => isWEBP d

instance (f : Format) (d : Bytes) : Decidable (matchesSignature f d) := by
  cases f <;> unfold matchesSignature <;> infer_instance

/-- The MIME type of each format. -/
def mimeOf : Format → Bytes
  | Format.png => ascii "image/png"
  | Format.jpeg => ascii "image/jpeg"
  | Format.gif => ascii "image/gif"
  | Format.webp => ascii "image/webp"

/-- The classification the specification describes: the first matching
signature in the order PNG, JPEG, GIF, WEBP, and `ErrUnsupportedImageType`
when none matches. -/
def classifySpec (d : Bytes) : Bytes × Option Err :=
  if isPNG d then (ascii "image/png", none)
  else if isJPEG d then (ascii "image/jpeg", none)
  else if isGIF d then (ascii "image/gif", none)
  else if isWEBP d then (ascii "image/webp", none)
  else ([], some ErrUnsupportedImageType)

/-! ## `encoding/base64` -/

/-- The alphabet of `base64.StdEncoding` (`encodeStd` in the Go library). -/
def encodeStd : Bytes :=
  ascii "ABCDEFGHIJKLMNOPQRSTUVWXYZabcdefghijklmnopqrstuvwxyz0123456789+/"

/-- The padding character of `base64.StdEncoding`, `'='`. -/
def StdPadding : Nat := 61

/-- The alphabet byte for a six-bit value (`enc.encode[i]`). -/
def encodeByte (i : Nat) : Nat := encodeStd.getD i 0

/-- Go `(*Encoding).Encode` for `base64.StdEncoding`: every three source bytes
give four alphabet bytes (`val>>18&0x3F`, `val>>12&0x3F`, `val>>6&0x3F`,
`val&0x3F` of `val = b0<<16 | b1<<8 | b2`), and a final block of one or two
bytes is encoded and padded with `'='` to four bytes. This is also
`base64.StdEncoding.EncodeToString`. -/
def Encode : Bytes → Bytes
  | a :: b :: c :: rest =>
    let val := a * 65536 + b * 256 + c
    encodeByte (val / 262144 % 64) :: encodeByte (val / 4096 % 64) ::
      encodeByte (val / 64 % 64) :: encodeByte (val % 64) :: Encode rest
  | [a, b] =>
    let val := a * 65536 + b * 256
    [encodeByte (val / 262144 % 64), encodeByte (val / 4096 % 64),
      encodeByte (val / 64 % 64), StdPadding]
  | [a] =>
    let val := a * 65536
    [encodeByte (val / 262144 % 64), encodeByte (val / 4096 % 64), StdPadding, StdPadding]
  | [] => []

/-- The six-bit value of an alphabet byte (the decode map of
`base64.StdEncoding`); `none` for a byte outside the alphabet. -/
def decodeByte (c : Nat) : Option Nat :=
  let i := encodeStd.indexOf c
  if i < 64 then some i else none

/-- Go `base64.StdEncoding.DecodeString` on text without line breaks: groups
of four alphabet bytes give three bytes, padding is accepted only at the end
of the last group, and anything else is a `CorruptInputError` (`none`). -/
def DecodeString : Bytes → Option Bytes
  | [] => some []
  | [a, b, 61, 61] =>
    match decodeByte a, decodeByte b with
    | some x, some y => some [(x * 4 + y / 16) % 256]
    | _, _ => none
  | [a, b, c, 61] =>
    match decodeByte a, decodeByte b, decodeByte c with
    | some x, some y, some z => some [(x * 4 + y / 16) % 256, (y * 16 + z / 4) % 256]
    | _, _, _ => none
  | a :: b :: c :: d :: rest =>
    match decodeByte a, decodeByte b, decodeByte c, decodeByte d, DecodeString rest with
    | some x, some y, some z, some t, some r =>
      some ((x * 4 + y / 16) % 256 :: (y * 16 + z / 4) % 256 :: (z * 64 + t) % 256 :: r)
    | _, _, _, _, _ => none
  | _ => none

/-- The streaming encoder returned by `base64.NewEncoder(base64.StdEncoding, w)`:
`w` is the content of the destination buffer (here the `bytes.Buffer` named
`out`), `buf` the source bytes received but not yet encoded (`e.buf[:e.nbuf]`,
fewer than three). -/
structure Encoder where
  w : Bytes
  buf : Bytes
  deriving DecidableEq, Repr

/-- Go `base64.NewEncoder(base64.StdEncoding, w)`. -/
def NewEncoder (w : Bytes) : Encoder := { w := w, buf := [] }

/-- The "large interior chunks" loop of `(*encoder).Write`: the complete
three-byte groups of `p` are encoded (without padding) and written, the one
or two bytes left over are returned. The library takes up to 768 source
bytes per round, always a multiple of three, which writes the same bytes. -/
def encodeInterior : Bytes → Bytes × Bytes
  | a :: b :: c :: rest =>
    let r := encodeInterior rest
    (Encode [a, b, c] ++ r.1, r.2)
  | p => ([], p)

/-- Go `(*encoder).Write`: a buffered "leading fringe" is completed to three
bytes and encoded, then all complete three-byte groups are encoded, and the
"trailing fringe" of at most two bytes is kept in `buf` until the next `Write`
or `Close`. Writing to a `bytes.Buffer` never fails, so the error is `nil`. -/
def Encoder.Write (e : Encoder) (p : Bytes) : Encoder × Nat × Option Err :=
  let k := if e.buf = [] then 0 else min p.length (3 - e.buf.length)
  let lead := e.buf ++ p.take k
  if e.buf ≠ [] ∧ lead.length < 3 then
    ({ e with buf := lead }, k, none)
  else
    let w1 := if e.buf = [] then e.w else e.w ++ Encode lead
    let r := encodeInterior (p.drop k)
    ({ w := w1 ++ r.1, buf := r.2 }, p.length, none)

/-- Go `(*encoder).Close`: "flushes any pending output from the encoder",
that is, encodes the buffered one or two bytes with padding. -/
def Encoder.Close (e : Encoder) : Encoder × Option Err :=
  if e.buf ≠ [] then ({ w := e.w ++ Encode e.buf, buf := [] }, none) else (e, none)

/-! ## `bytesToBase64Data` -/

/-- Go `bytesToBase64Data`, together with the content of the local buffer
`out` when the call has finished. The first component is what the caller
receives. The operand of `return` is evaluated on line 32, where `out.String()`
copies the buffer; the call `base64Encoder.Close()` deferred on line 30 runs
after that, and what it writes reaches only the second component. -/
def bytesToBase64DataRun (data : Bytes) : Option ((Bytes × Option Err) × Bytes) :=
  match getImageMimeType data with
  | none => none
  | some (_, some err) => some (([], some err), [])
  | some (mime, none) =>
    let out : Bytes := []
    let base64Encoder := NewEncoder out
    match base64Encoder.Write data with
    | (_, _, some err) => some (([], some (Err.wrapf "failed to base64 bytes: %w" err)), out)
    | (base64Encoder, _, none) =>
      let result := ascii "data:" ++ mime ++ ascii ";base64," ++ base64Encoder.w
      let closed := base64Encoder.Close
      some ((result, none), closed.1.w)

/-- Go `bytesToBase64Data`: the `(string, error)` the caller receives, or
`none` when the call panics. -/
def bytesToBase64Data (data : Bytes) : Option (Bytes × Option Err) :=
  (bytesToBase64DataRun data).map Prod.fst

/-- The part of a data URI after the first occurrence of `marker`
("removing the prefix up to and including the marker"); empty when the
marker does not occur. -/
def afterMarker (marker : Bytes) : Bytes → Bytes
  | [] => []
  | c :: cs =>
    if marker.isPrefixOf (c :: cs) then (c :: cs).drop marker.length
    else afterMarker marker cs

/-- A 12-byte buffer that carries the GIF signature `GIF87a` and, at offset 6,
the bytes `JFIF`. -/
def gifWithJFIF : Bytes := ascii "GIF87aJFIF" ++ [0, 0]

/-- A 13-byte buffer starting with the PNG signature. -/
def pngThirteen : Bytes := [137, 80, 78, 71, 13, 10, 26, 10, 0, 0, 0, 13, 73]

/-- A 14-byte buffer starting with the GIF signature `GIF89a`. -/
def gifFourteen : Bytes := ascii "GIF89a" ++ [1, 0, 1, 0, 128, 0, 0, 255]

/-! ## `strings.Replacer` and `quoteEscaper` -/

/-- The replacer `strings.NewReplacer` builds when every old string is a
single byte (the library's `byteStringReplacer`): a table from bytes to
replacement strings. -/
structure Replacer where
  pairs : List (Nat × Bytes)

/-- Go `strings.NewReplacer(old1, new1, old2, new2, ...)` for one-byte old
strings, given as the list of `(old, new)` pairs. -/
def NewReplacer (oldnew : List (Nat × Bytes)) : Replacer := { pairs := oldnew }

/-- The replacement of byte `b`, if it has one; comparisons are done in
argument order, so the first pair for a byte wins. -/
def Replacer.replacement (r : Replacer) (b : Nat) : Option Bytes :=
  (r.pairs.find? (fun p => p.1 == b)).map Prod.snd

/-- Go `(*Replacer).Replace`: one pass over the bytes of `s` from left to
right; a byte with a replacement is replaced, any other byte is copied. -/
def Replacer.Replace (r : Replacer) : Bytes → Bytes
  | [] => []
  | b :: s =>
    (match r.replacement b with
      | some n => n
      | none => [b]) ++ r.Replace s

/-- Source line 14:
`var quoteEscaper = strings.NewReplacer("\\", "\\\\", "\"", "\\\"")`
(backslash is byte 92, double quote is byte 34). -/
def quoteEscaper : Replacer := NewReplacer [(92, ascii "\\\\"), (34, ascii "\\\"")]

/-! ## `net/textproto` and `mime/multipart` -/

/-- Go string comparison `a < b`: lexicographic on bytes. -/
def bytesLess : Bytes → Bytes → Bool
  | [], [] => false
  | [], _ :: _ => true
  | _ :: _, [] => false
  | a :: as, b :: bs => decide (a < b) || (decide (a = b) && bytesLess as bs)

/-- Go `textproto.MIMEHeader`, a map from header names to value lists, kept
as an association list in increasing key order: the order in which
`(*multipart.Writer).CreatePart` writes the headers (it sorts the keys). -/
abbrev MIMEHeader := List (Bytes × List Bytes)

/-- Go `MIMEHeader.Set(key, value)`: the entry of `key` becomes the single
value `value`. The two keys the source uses, `Content-Disposition` and
`Content-Type`, are already in canonical form. -/
def MIMEHeader.Set : MIMEHeader → Bytes → Bytes → MIMEHeader
  | [], key, value => [(key, [value])]
  | (k, vs) :: rest, key, value =>
    if key = k then (key, [value]) :: rest
    else if bytesLess key k then (key, [value]) :: (k, vs) :: rest
    else (k, vs) :: MIMEHeader.Set rest key value

/-- Go `MIMEHeader.Values(key)`. -/
def MIMEHeader.Values : MIMEHeader → Bytes → List Bytes
  | [], _ => []
  | (k, vs) :: rest, key => if key = k then vs else MIMEHeader.Values rest key

/-- The lines `key: value\r\n` that `CreatePart` writes for one key. -/
def valueLines (k : Bytes) : List Bytes → Bytes
  | [] => []
  | v :: vs => k ++ ascii ": " ++ v ++ ascii "\r\n" ++ valueLines k vs

/-- The header block that `CreatePart` writes: every key in sorted order,
every value of the key, one line each. -/
def headerLines : MIMEHeader → Bytes
  | [] => []
  | (k, vs) :: rest => valueLines k vs ++ headerLines rest

/-- Go `multipart.Writer` writing into a `bytes.Buffer`: `w` is the content
of that buffer (`requestBody`), `boundary` the boundary token, `lastpart`
tells whether a part has been created. -/
structure Writer where
  w : Bytes
  boundary : Bytes
  lastpart : Bool
  deriving DecidableEq, Repr

/-- Go `multipart.NewWriter(w)`; the random boundary the library draws
(60 hexadecimal digits) is the parameter `boundary`. -/
def NewWriter (w : Bytes) (boundary : Bytes) : Writer :=
  { w := w, boundary := boundary, lastpart := false }

/-- Go `(*bytes.Buffer).Write`: appends, and "err is always nil". -/
def bufferWrite (buf : Bytes) (p : Bytes) : Bytes × Nat × Option Err :=
  (buf ++ p, p.length, none)

/-- Go `(*multipart.Writer).CreatePart`: writes `--boundary\r\n` for the first
part and `\r\n--boundary\r\n` for a later one, then the header lines and an
empty line; it fails only when the write to the underlying buffer does. -/
def Writer.CreatePart (wr : Writer) (header : MIMEHeader) : Writer × Option Err :=
  let delimiter :=
    if wr.lastpart then ascii "\r\n--" ++ wr.boundary ++ ascii "\r\n"
    else ascii "--" ++ wr.boundary ++ ascii "\r\n"
  let b := delimiter ++ headerLines header ++ ascii "\r\n"
  match bufferWrite wr.w b with
  | (_, _, some err) => (wr, some err)
  | (w1, _, none) => ({ wr with w := w1, lastpart := true }, none)

/-- Go `(*part).Write` on the part returned by `CreatePart`: the bytes go to
the underlying buffer. -/
def Writer.partWrite (wr : Writer) (d : Bytes) : Writer × Nat × Option Err :=
  match bufferWrite wr.w d with
  | (w1, n, err) => ({ wr with w := w1 }, n, err)

/-- Go `(*multipart.Writer).Close`: writes the closing delimiter
`\r\n--boundary--\r\n`. -/
def Writer.Close (wr : Writer) : Writer × Option Err :=
  match bufferWrite wr.w (ascii "\r\n--" ++ wr.boundary ++ ascii "--\r\n") with
  | (w1, _, err) => ({ wr with w := w1, lastpart := false }, err)

/-- Go `(*multipart.Writer).FormDataContentType`: the boundary is quoted when
it contains one of the bytes of `()<>@,;:\"/[]?= `. -/
def Writer.FormDataContentType (wr : Writer) : Bytes :=
  let b :=
    if wr.boundary.any (fun c => (ascii "()<>@,;:\\\"/[]?= ").contains c) then
      ascii "\"" ++ wr.boundary ++ ascii "\""
    else wr.boundary
  ascii "multipart/form-data; boundary=" ++ b

/-- An `io.Reader` as `io.Copy` sees it: the byte blocks its successive
`Read` calls deliver, and how the stream ends, with `io.EOF` (`none`) or with
a read error. -/
structure Reader where
  reads : List Bytes
  err : Option Err
  deriving DecidableEq, Repr

/-- All bytes the reader delivers before the stream ends. -/
def Reader.bytes (r : Reader) : Bytes := r.reads.foldr (fun blk acc => blk ++ acc) []

/-- The loop of Go `io.Copy(part, reader)`: each block read is written to the
part; the loop stops at the end of the stream, returning `nil` for `io.EOF`
and the read error otherwise, or at the first failing write. -/
def copyLoop (wr : Writer) (written : Nat) : List Bytes → Option Err → Writer × Nat × Option Err
  | [], final => (wr, written, final)
  | blk :: blks, final =>
    match wr.partWrite blk with
    | (wr1, _, some err) => (wr1, written, some err)
    | (wr1, n, none) => copyLoop wr1 (written + n) blks final

/-- Go `io.Copy(part, reader)`. -/
def ioCopy (wr : Writer) (reader : Reader) : Writer × Nat × Option Err :=
  copyLoop wr 0 reader.reads reader.err

/-! ## `multipartBodyWithJSON` -/

/-- The type `File` of the package (declared outside `utils.go`): the fields
`Name`, `ContentType` and `Reader` that `multipartBodyWithJSON` uses. -/
structure File where
  Name : Bytes
  ContentType : Bytes
  Reader : Reader
  deriving DecidableEq, Repr

/-- The three results `(contentType string, body []byte, err error)` of
`multipartBodyWithJSON`; a `nil` body is `none`. -/
structure Result where
  contentType : Bytes
  body : Option Bytes
  err : Option Err
  deriving DecidableEq, Repr

/-- Go `fmt.Sprintf` with the verb `%d` on a non-negative `int`. -/
def decimal (n : Nat) : Bytes := ascii (Nat.repr n)

/-- Source lines 82-85:
`fmt.Sprintf("form-data; name=\"file%d\"; filename=\"%s\"", fileIndex,
quoteEscaper.Replace(file.Name))`. -/
def fileDisposition (fileIndex : Nat) (name : Bytes) : Bytes :=
  ascii "form-data; name=\"file" ++ decimal fileIndex ++ ascii "\"; filename=\"" ++
    quoteEscaper.Replace name ++ ascii "\""

/-- Source lines 88-91: the content type of a file part. -/
def fileContentType (file : File) : Bytes :=
  if file.ContentType = [] then ascii "application/octet-stream" else file.ContentType

/-- Source lines 79-93: the header of the part of `file`. -/
def fileHeader (fileIndex : Nat) (file : File) : MIMEHeader :=
  let header : MIMEHeader := []
  let header := header.Set (ascii "Content-Disposition") (fileDisposition fileIndex file.Name)
  header.Set (ascii "Content-Type") (fileContentType file)

/-- Source lines 78-104: the loop `for fileIndex, file := range files`, from
index `fileIndex` on. It returns the writer and the error of the first
failing iteration, if any. -/
def fileLoop (writer : Writer) (fileIndex : Nat) : List File → Writer × Option Err
  | [] => (writer, none)
  | file :: files =>
    match writer.CreatePart (fileHeader fileIndex file) with
    | (writer1, some err) => (writer1, some (Err.wrapf "failed to create part: %w" err))
    | (writer1, none) =>
      match ioCopy writer1 file.Reader with
      | (writer2, _, some err) => (writer2, some (Err.wrapf "failed to copy file: %w" err))
      | (writer2, _, none) => fileLoop writer2 (fileIndex + 1) files

/-- Source lines 64-66: the header of the `payload_json` part. -/
def payloadHeader : MIMEHeader :=
  let header : MIMEHeader := []
  let header := header.Set (ascii "Content-Disposition") (ascii "form-data; name=\"payload_json\"")
  header.Set (ascii "Content-Type") (ascii "application/json")

/-- Go `multipartBodyWithJSON`. `jsonMarshal` is `json.Marshal` on the
payload type and `boundary` the boundary token drawn by `multipart.NewWriter`. -/
def multipartBodyWithJSON {α : Type} (jsonMarshal : α → Bytes × Option Err) (boundary : Bytes)
    (data : α) (files : List File) : Result :=
  let requestBody : Bytes := []
  let writer := NewWriter requestBody boundary
  match jsonMarshal data with
  | (_, some err) =>
    { contentType := [], body := none, err := some (Err.wrapf "failed to marshal payload: %w" err) }
  | (payload, none) =>
    match writer.CreatePart payloadHeader with
    | (_, some err) =>
      { contentType := [], body := none, err := some (Err.wrapf "failed to create part: %w" err) }
    | (writer1, none) =>
      match writer1.partWrite payload with
      | (_, _, some err) =>
        { contentType := [], body := none,
          err := some (Err.wrapf "failed to write payload: %w" err) }
      | (writer2, _, none) =>
        match fileLoop writer2 0 files with
        | (_, some err) => { contentType := [], body := none, err := some err }
        | (writer3, none) =>
          match writer3.Close with
          | (_, some _) =>
            { contentType := [], body := none, err := some (Err.errorf "failed to close writer") }
          | (writer4, none) =>
            { contentType := writer4.FormDataContentType, body := some writer4.w, err := none }

/-! ### The wire format, in the words of the specification -/

/-- The file-name escaping the specification describes: in one pass from
left to right, a backslash becomes two backslashes, a double quote becomes
a backslash and a double quote, every other byte is kept. -/
def escapeSpec : Bytes → Bytes
  | [] => []
  | c :: cs =>
    (if c = 92 then [92, 92] else if c = 34 then [92, 34] else [c]) ++ escapeSpec cs

/-- One part of a multipart body: its form-field name, what follows the name
in the `Content-Disposition` value, its content type and its content. -/
structure Part where
  name : Bytes
  dispositionRest : Bytes
  contentType : Bytes
  content : Bytes
  deriving DecidableEq, Repr

/-- The bytes of a part between two delimiters: the `Content-Disposition`
line, the `Content-Type` line, an empty line, the content. -/
def Part.render (p : Part) : Bytes :=
  ascii "Content-Disposition: form-data; name=\"" ++ p.name ++ ascii "\"" ++ p.dispositionRest ++
    ascii "\r\n" ++ ascii "Content-Type: " ++ p.contentType ++ ascii "\r\n" ++ ascii "\r\n" ++
    p.content

/-- The `payload_json` part for the JSON bytes `json`. -/
def payloadPart (json : Bytes) : Part :=
  { name := ascii "payload_json", dispositionRest := [],
    contentType := ascii "application/json", content := json }

/-- The part of the file at position `i`: named `file<i>`, with the escaped
file name, the declared content type or `application/octet-stream`, and all
bytes of the file's reader. -/
def filePart (i : Nat) (file : File) : Part :=
  { name := ascii "file" ++ decimal i,
    dispositionRest := ascii "; filename=\"" ++ escapeSpec file.Name ++ ascii "\"",
    contentType :=
      if file.ContentType = [] then ascii "application/octet-stream" else file.ContentType,
    content := file.Reader.bytes }

/-- The parts of the files of a list, numbered by position from `i` on. -/
def filePartsFrom : Nat → List File → List Part
  | _, [] => []
  | i, file :: files => filePart i file :: filePartsFrom (i + 1) files

/-- The parts of a body: the payload part, then one part per file. -/
def expectedParts (json : Bytes) (files : List File) : List Part :=
  payloadPart json :: filePartsFrom 0 files

/-- The parts after the first, each introduced by `\r\n--boundary\r\n`. -/
def laterParts (boundary : Bytes) : List Part → Bytes
  | [] => []
  | p :: ps => ascii "\r\n--" ++ boundary ++ ascii "\r\n" ++ p.render ++ laterParts boundary ps

/-- A multipart body with the given parts: `--boundary\r\n` and the first
part, the later parts, and the closing delimiter `\r\n--boundary--\r\n`. -/
def frame (boundary : Bytes) : List Part → Bytes
  | [] => ascii "\r\n--" ++ boundary ++ ascii "--\r\n"
  | p :: ps =>
    ascii "--" ++ boundary ++ ascii "\r\n" ++ p.render ++ laterParts boundary ps ++
      ascii "\r\n--" ++ boundary ++ ascii "--\r\n"

/-- Every reader of the list ends with `io.EOF`, not with a read error. -/
def allReadersSucceed (files : List File) : Prop := ∀ f ∈ files, f.Reader.err = none

instance (files : List File) : Decidable (allReadersSucceed files) := by
  unfold allReadersSucceed; infer_instance

/-- The behaviour of `json.Marshal` on a payload that is JSON text already
(a `json.RawMessage`): the text itself, and no error. -/
def marshalRaw (json : Bytes) : Bytes × Option Err := (json, none)

/-- Two files with the same name `a.png` and no declared content type. -/
def twoFilesSameName : List File :=
  [{ Name := ascii "a.png", ContentType := [], Reader := { reads := [ascii "one"], err := none } },
    { Name := ascii "a.png", ContentType := [], Reader := { reads := [ascii "two"], err := none } }]

/-- A file `cat.png` with no declared content type whose bytes begin with the
PNG signature. -/
def pngFileUntyped : File :=
  { Name := ascii "cat.png", ContentType := [],
    Reader := { reads := [[137, 80, 78, 71, 13, 10, 26, 10, 0, 0, 0, 0]], err := none } }

/-- A file whose reader delivers two bytes and then fails. -/
def brokenFile : File :=
  { Name := ascii "b.bin", ContentType := ascii "text/plain",
    Reader := { reads := [[1, 2]], err := some (Err.external "unexpected EOF") } }

/-- A 14-byte buffer starting with the JPEG signature `FF D8 FF`. -/
def jpegFourteen : Bytes := [255, 216, 255, 224, 0, 16, 74, 70, 73, 70, 0, 1, 1, 0]

/-- Reading an escaped file name back: a backslash and the byte after it
stand for that byte, any other byte stands for itself. -/
def unescape : Bytes → Bytes
  | 92 :: c :: rest => c :: unescape rest
  | c :: rest => c :: unescape rest
  | [] => []

/-- The number of consecutive backslashes at the end of `l`. -/
def trailingBackslashes (l : Bytes) : Nat :=
  (l.reverse.takeWhile (fun c => c == 92)).length

/-- The boundary tokens `multipart.NewWriter` draws (the library's
`randomBoundary`): 30 random bytes written as 60 lower-case hexadecimal
digits. -/
def isGeneratedBoundary (b : Bytes) : Prop :=
  b.length = 60 ∧ ∀ c ∈ b, c ∈ ascii "0123456789abcdef"

instance (b : Bytes) : Decidable (isGeneratedBoundary b) := by
  unfold isGeneratedBoundary; infer_instance

/-- The loop of source lines 78-104 as `fileLoop`, together with the
positions of the files whose `Reader` was handed to `io.Copy`, in the order
in which that happened. -/
def fileLoopRun (writer : Writer) (fileIndex : Nat) :
    List File → (Writer × Option Err) × List Nat
  | [] => ((writer, none), [])
  | file :: files =>
    match writer.CreatePart (fileHeader fileIndex file) with
    | (writer1, some err) => ((writer1, some (Err.wrapf "failed to create part: %w" err)), [])
    | (writer1, none) =>
      match ioCopy writer1 file.Reader with
      | (writer2, _, some err) =>
        ((writer2, some (Err.wrapf "failed to copy file: %w" err)), [fileIndex])
      | (writer2, _, none) =>
        let r := fileLoopRun writer2 (fileIndex + 1) files
        (r.1, fileIndex :: r.2)

/-- Go `multipartBodyWithJSON` as above, together with what the call has done
besides returning: the state of the multipart writer (with the content of
`requestBody`) when the call returns, and the positions of the files whose
`Reader` was read. -/
def multipartBodyWithJSONRun {α : Type} (jsonMarshal : α → Bytes × Option Err)
    (boundary : Bytes) (data : α) (files : List File) : Result × Writer × List Nat :=
  let requestBody : Bytes := []
  let writer := NewWriter requestBody boundary
  match jsonMarshal data with
  | (_, some err) =>
    ({ contentType := [], body := none,
        err := some (Err.wrapf "failed to marshal payload: %w" err) }, writer, [])
  | (payload, none) =>
    match writer.CreatePart payloadHeader with
    | (writer1, some err) =>
      ({ contentType := [], body := none,
          err := some (Err.wrapf "failed to create part: %w" err) }, writer1, [])
    | (writer1, none) =>
      match writer1.partWrite payload with
      | (writer2, _, some err) =>
        ({ contentType := [], body := none,
            err := some (Err.wrapf "failed to write payload: %w" err) }, writer2, [])
      | (writer2, _, none) =>
        match fileLoopRun writer2 0 files with
        | ((writer3, some err), readers) =>
          ({ contentType := [], body := none, err := some err }, writer3, readers)
        | ((writer3, none), readers) =>
          match writer3.Close with
          | (writer4, some _) =>
            ({ contentType := [], body := none,
                err := some (Err.errorf "failed to close writer") }, writer4, readers)
          | (writer4, none) =>
            ({ contentType := writer4.FormDataContentType, body := some writer4.w, err := none },
              writer4, readers)

/-- A file without a declared content type whose reader delivers no byte. -/
def emptyFile : File :=
  { Name := ascii "empty.txt", ContentType := [], Reader := { reads := [], err := none } }

/-- A stand-in for `json.Marshal` on a payload that cannot be serialised. -/
def marshalFails (_ : Unit) : Bytes × Option Err :=
  ([], some (Err.external "json: unsupported type: chan int"))

/-- A boundary token of the generated form, 60 hexadecimal digits. -/
def sampleBoundary : Bytes :=
  ascii "0123456789abcdef0123456789abcdef0123456789abcdef0123456789ab"

/-- The bytes of `rest` before the first occurrence of the byte string `d`
("up to the next delimiter"); all of `rest` when `d` does not occur. -/
def upToDelimiter (d : Bytes) : Bytes → Bytes
  | [] => []
  | c :: cs => if d.isPrefixOf (c :: cs) then [] else c :: upToDelimiter d cs

/-- No occurrence of the byte string `d` begins inside `content` when
`content` is followed by `d`. -/
def delimiterFree (d content : Bytes) : Prop :=
  ∀ k, k < content.length → ¬ d <+: (content ++ d).drop k

instance (d content : Bytes) : Decidable (delimiterFree d content) := by
  unfold delimiterFree; infer_instance

/-- A file with a declared content type whose reader delivers the bytes
`hello world` in three blocks. -/
def chunkedFile : File :=
  { Name := ascii "b.txt", ContentType := ascii "text/plain",
    Reader := { reads := [ascii "hello ", ascii "wor", ascii "ld"], err := none } }

/-- A file whose bytes contain the delimiter `\r\n--B` of the boundary
`sampleBoundary`: `ab`, the delimiter, `\r\ncd`. -/
def boundaryInContentFile : File :=
  { Name := ascii "x.bin", ContentType := [],
    Reader :=
      { reads := [ascii "ab" ++ (ascii "\r\n--" ++ sampleBoundary) ++ ascii "\r\ncd"],
        err := none } }

set_option maxRecDepth 100000

/-! ## Properties of `getImageMimeType` -/

theorem sliceEqual_eq (data : Bytes) (lo hi : Nat) (pat : Bytes)
    (hlen : lo + pat.length = hi) (h : hi ≤ data.length) :
    sliceEqual data lo hi pat = some (decide (hasAt data lo pat)) := by
  have hlo : lo ≤ hi := by omega
  have hs : sliceExpr data lo hi = some ((data.take hi).drop lo) := by
    simp [sliceExpr, hlo, h]
  have ht : (data.take hi).drop lo = (data.drop lo).take pat.length := by
    rw [List.drop_take]; congr 1; omega
  simp only [sliceEqual, hs, Option.map_some', bytesEqual, ht, Option.some.injEq]
  rw [decide_eq_decide]
  unfold hasAt
  rw [List.prefix_iff_eq_take]
  exact eq_comm

theorem casePNG_eq (d : Bytes) (h : 12 ≤ d.length) :
    casePNG d = some (decide (isPNG d)) := by
  unfold casePNG
  rw [sliceEqual_eq d 0 8 _ (by decide) (by omega), Option.some.injEq, decide_eq_decide]
  rfl

theorem caseJPEG_eq (d : Bytes) (h : 12 ≤ d.length) :
    caseJPEG d = some (decide (isJPEG d)) := by
  unfold caseJPEG
  rw [sliceEqual_eq d 0 3 _ (by decide) (by omega),
    sliceEqual_eq d 6 10 _ (by decide) (by omega),
    sliceEqual_eq d 6 10 _ (by decide) (by omega)]
  by_cases h1 : hasAt d 0 [255, 216, 255] <;> by_cases h2 : hasAt d 6 (ascii "JFIF") <;>
    by_cases h3 : hasAt d 6 (ascii "Exif") <;> simp [orElse, isJPEG, h1, h2, h3]

theorem ascii_JFIF : ascii "JFIF" = [74, 70, 73, 70] := by decide

theorem ascii_Exif : ascii "Exif" = [69, 120, 105, 102] := by decide

theorem ascii_RIFF : ascii "RIFF" = [82, 73, 70, 70] := by decide

theorem ascii_WEBP : ascii "WEBP" = [87, 69, 66, 80] := by decide

theorem ascii_GIF87a : ascii "GIF87a" = [71, 73, 70, 56, 55, 97] := by decide

theorem ascii_GIF89a : ascii "GIF89a" = [71, 73, 70, 56, 57, 97] := by decide

theorem caseGIF_eq (d : Bytes) (h : 12 ≤ d.length) :
    caseGIF d = some (decide (isGIF d)) := by
  unfold caseGIF
  rw [sliceEqual_eq d 0 6 _ (by decide) (by omega),
    sliceEqual_eq d 0 6 _ (by decide) (by omega)]
  by_cases h1 : hasAt d 0 [71, 73, 70, 56, 55, 97] <;>
    by_cases h2 : hasAt d 0 [71, 73, 70, 56, 57, 97] <;>
      simp [orElse, isGIF, ascii_GIF87a, ascii_GIF89a, h1, h2]

theorem caseWEBP_eq (d : Bytes) (h : 12 ≤ d.length) :
    caseWEBP d = some (decide (isWEBP d)) := by
  unfold caseWEBP
  rw [sliceEqual_eq d 0 4 _ (by decide) (by omega),
    sliceEqual_eq d 8 12 _ (by decide) (by omega)]
  by_cases h1 : hasAt d 0 (ascii "RIFF") <;>
    by_cases h2 : hasAt d 8 (ascii "WEBP") <;> simp [andThen, isWEBP, h1, h2]

theorem getImageMimeType_eq_classifySpec (data : Bytes) (hlen : 12 ≤ data.length) :
    getImageMimeType data = some (classifySpec data) := by
  unfold getImageMimeType classifySpec
  rw [casePNG_eq data hlen, caseJPEG_eq data hlen, caseGIF_eq data hlen, caseWEBP_eq data hlen]
  by_cases h1 : isPNG data
  · simp [h1]
  by_cases h2 : isJPEG data
  · simp [h1, h2]
  by_cases h3 : isGIF data
  · simp [h1, h2, h3]
  by_cases h4 : isWEBP data
  · simp [h1, h2, h3, h4]
  · simp [h1, h2, h3, h4]

/-- C1. On every buffer of at least 12 bytes `getImageMimeType` returns
normally, and its result is that of the first matching signature check in the
order PNG, JPEG, GIF, WEBP (`"image/png"`, `"image/jpeg"`, `"image/gif"`,
`"image/webp"`), or the empty string with `ErrUnsupportedImageType` when no
check matches. -/
theorem getImageMimeType_first_match (data : Bytes) (hlen : 12 ≤ data.length) :
    getImageMimeType data = some (classifySpec data) :=
  getImageMimeType_eq_classifySpec data hlen

/-- C1 at the all-zero buffer of 12 bytes: no signature matches and the
result is `ErrUnsupportedImageType`. -/
theorem getImageMimeType_first_match_witness :
    12 ≤ (List.replicate 12 0 : Bytes).length ∧
      getImageMimeType (List.replicate 12 0) = some ([], some ErrUnsupportedImageType) :=
  ⟨by decide, (getImageMimeType_first_match (List.replicate 12 0) (by decide)).trans (by decide)⟩

theorem exists_twelve (d : Bytes) (h : 12 ≤ d.length) :
    ∃ a0 a1 a2 a3 a4 a5 a6 a7 a8 a9 a10 a11 rest,
      d = a0 :: a1 :: a2 :: a3 :: a4 :: a5 :: a6 :: a7 :: a8 :: a9 :: a10 :: a11 :: rest := by
  match d, h with
  | a0 :: a1 :: a2 :: a3 :: a4 :: a5 :: a6 :: a7 :: a8 :: a9 :: a10 :: a11 :: rest, _ =>
    exact ⟨a0, a1, a2, a3, a4, a5, a6, a7, a8, a9, a10, a11, rest, rfl⟩

theorem not_isPNG_of_isJPEG (d : Bytes) (h : 12 ≤ d.length) (hj : isJPEG d) : ¬ isPNG d := by
  obtain ⟨a0, a1, a2, a3, a4, a5, a6, a7, a8, a9, a10, a11, rest, rfl⟩ := exists_twelve d h
  simp only [isJPEG, isPNG, hasAt, ascii_JFIF, ascii_Exif, List.drop, List.cons_prefix_cons,
    List.nil_prefix, and_true] at hj ⊢
  omega

theorem not_isPNG_of_isGIF (d : Bytes) (h : 12 ≤ d.length) (hg : isGIF d) : ¬ isPNG d := by
  obtain ⟨a0, a1, a2, a3, a4, a5, a6, a7, a8, a9, a10, a11, rest, rfl⟩ := exists_twelve d h
  simp only [isGIF, isPNG, hasAt, ascii_GIF87a, ascii_GIF89a, List.drop, List.cons_prefix_cons,
    List.nil_prefix, and_true] at hg ⊢
  omega

theorem not_others_of_isWEBP (d : Bytes) (h : 12 ≤ d.length) (hw : isWEBP d) :
    ¬ isPNG d ∧ ¬ isJPEG d ∧ ¬ isGIF d := by
  obtain ⟨a0, a1, a2, a3, a4, a5, a6, a7, a8, a9, a10, a11, rest, rfl⟩ := exists_twelve d h
  simp only [isWEBP, isGIF, isJPEG, isPNG, hasAt, ascii_GIF87a, ascii_GIF89a, ascii_JFIF,
    ascii_Exif, ascii_RIFF, ascii_WEBP, List.drop, List.cons_prefix_cons,
    List.nil_prefix, and_true] at hw ⊢
  omega

/-- C2 as stated fails: the 12-byte buffer `GIF87aJFIF\0\0` matches the GIF
signature, yet `getImageMimeType` returns `"image/jpeg"`, because the JPEG
check (bytes 6-9 equal `JFIF`) comes before the GIF check. -/
theorem gif_signature_classified_as_jpeg :
    12 ≤ gifWithJFIF.length ∧ matchesSignature Format.gif gifWithJFIF ∧
      getImageMimeType gifWithJFIF = some (ascii "image/jpeg", none) ∧
      getImageMimeType gifWithJFIF ≠ some (mimeOf Format.gif, none) := by
  decide

/-- C2, amended. A buffer of at least 12 bytes whose header matches the
signature of a format is classified as that format, with no error, provided
that, for GIF, the buffer does not also match the JPEG signature (which is
checked first). For PNG, JPEG and WEBP no proviso is needed. -/
theorem getImageMimeType_of_matchesSignature (fmt : Format) (data : Bytes)
    (hlen : 12 ≤ data.length) (hsig : matchesSignature fmt data)
    (hgif : fmt = Format.gif → ¬ matchesSignature Format.jpeg data) :
    getImageMimeType data = some (mimeOf fmt, none) := by
  rw [getImageMimeType_eq_classifySpec data hlen]
  cases fmt with
  | png =>
    have h1 : isPNG data := hsig
    simp [classifySpec, h1, mimeOf]
  | jpeg =>
    have h2 : isJPEG data := hsig
    simp [classifySpec, not_isPNG_of_isJPEG data hlen h2, h2, mimeOf]
  | gif =>
    have h3 : isGIF data := hsig
    have h2 : ¬ isJPEG data := hgif rfl
    simp [classifySpec, not_isPNG_of_isGIF data hlen h3, h2, h3, mimeOf]
  | webp =>
    have h4 : isWEBP data := hsig
    obtain ⟨h1, h2, h3⟩ := not_others_of_isWEBP data hlen h4
    simp [classifySpec, h1, h2, h3, h4, mimeOf]

/-- C2, amended, at the 12-byte buffer `GIF89a` followed by six zero bytes. -/
theorem getImageMimeType_of_matchesSignature_witness :
    12 ≤ (ascii "GIF89a" ++ [0, 0, 0, 0, 0, 0]).length ∧
      matchesSignature Format.gif (ascii "GIF89a" ++ [0, 0, 0, 0, 0, 0]) ∧
      (Format.gif = Format.gif →
        ¬ matchesSignature Format.jpeg (ascii "GIF89a" ++ [0, 0, 0, 0, 0, 0])) ∧
      getImageMimeType (ascii "GIF89a" ++ [0, 0, 0, 0, 0, 0]) = some (ascii "image/gif", none) :=
  ⟨by decide, by decide, by decide,
    getImageMimeType_of_matchesSignature Format.gif (ascii "GIF89a" ++ [0, 0, 0, 0, 0, 0])
      (by decide) (by decide) (by decide)⟩

/-- C3 fails on the code. `getImageMimeType` has no length check: on the
empty buffer and on the first four bytes of the PNG signature the slice
expression `data[0:8]` panics, and on the eight bytes of the PNG signature
the call returns `"image/png"` instead of `ErrUnsupportedImageType`. -/
theorem getImageMimeType_short_buffer :
    getImageMimeType [] = none ∧
      getImageMimeType [137, 80, 78, 71] = none ∧
      getImageMimeType [137, 80, 78, 71, 13, 10, 26, 10] = some (ascii "image/png", none) := by
  decide

/-! ## Properties of `bytesToBase64Data` -/

/-- C4 fails on the code. For the 13-byte buffer `pngThirteen` the call
succeeds, but decoding what follows `;base64,` gives only the first 12 bytes:
the last byte is still buffered in the encoder when the result is built. -/
theorem bytesToBase64Data_roundtrip_loses_tail :
    bytesToBase64Data pngThirteen =
        some (ascii "data:image/png;base64,iVBORw0KGgoAAAAN", none) ∧
      DecodeString (afterMarker (ascii ";base64,") (ascii "data:image/png;base64,iVBORw0KGgoAAAAN"))
        = some (pngThirteen.take 12) ∧
      DecodeString (afterMarker (ascii ";base64,") (ascii "data:image/png;base64,iVBORw0KGgoAAAAN"))
        ≠ some pngThirteen := by
  decide

/-- C5 fails on the code. For the 14-byte buffer `gifFourteen`, classified as
`"image/gif"`, the returned string carries the encoding of the first 12 bytes
only, not the padded encoding of all of `data`; the deferred `Close` writes
the final block into `out` after the result has been built. -/
theorem bytesToBase64Data_omits_final_block :
    getImageMimeType gifFourteen = some (ascii "image/gif", none) ∧
      bytesToBase64Data gifFourteen =
        some (ascii "data:" ++ ascii "image/gif" ++ ascii ";base64," ++
          Encode (gifFourteen.take 12), none) ∧
      bytesToBase64Data gifFourteen ≠
        some (ascii "data:" ++ ascii "image/gif" ++ ascii ";base64," ++ Encode gifFourteen, none) ∧
      (bytesToBase64DataRun gifFourteen).map Prod.snd = some (Encode gifFourteen) := by
  decide

/-! ## The encoder in general -/

theorem encodeInterior_eq (p : Bytes) :
    encodeInterior p =
      (Encode (p.take (3 * (p.length / 3))), p.drop (3 * (p.length / 3))) := by
  induction p using encodeInterior.induct with
  | case1 a b c rest ih =>
    have hlen : 3 * ((a :: b :: c :: rest).length / 3) = 3 * (rest.length / 3) + 3 := by
      simp only [List.length_cons]
      omega
    rw [encodeInterior, ih, hlen]
    simp [Encode]
  | case2 p hp =>
    have hshort : p.length < 3 := by
      match p, hp with
      | [], _ => simp
      | [_], _ => simp
      | [_, _], _ => simp
      | a :: b :: c :: rest, hp => exact absurd rfl (hp a b c rest)
    have hz : 3 * (p.length / 3) = 0 := by omega
    rw [encodeInterior, hz]
    · simp [Encode]
    · exact hp

theorem bytesToBase64DataRun_eq (data mime : Bytes)
    (hmime : getImageMimeType data = some (mime, none)) :
    bytesToBase64DataRun data =
      some ((ascii "data:" ++ mime ++ ascii ";base64," ++
          Encode (data.take (3 * (data.length / 3))), none),
        Encode (data.take (3 * (data.length / 3))) ++
          Encode (data.drop (3 * (data.length / 3)))) := by
  unfold bytesToBase64DataRun
  rw [hmime]
  simp only [NewEncoder, Encoder.Write, Encoder.Close, if_true, List.take_zero, List.append_nil,
    List.drop_zero, List.nil_append, ne_eq, not_true_eq_false, false_and, if_false,
    encodeInterior_eq]
  by_cases hrest : data.drop (3 * (data.length / 3)) = []
  · simp [hrest, Encode]
  · simp [hrest]

/-! ## Properties of `quoteEscaper` and of the part headers -/

theorem quoteEscaper_Replace_eq (s : Bytes) : quoteEscaper.Replace s = escapeSpec s := by
  induction s with
  | nil => rfl
  | cons c cs ih =>
    have e1 : ascii "\\\\" = [92, 92] := by decide
    have e2 : ascii "\\\"" = [92, 34] := by decide
    unfold Replacer.Replace escapeSpec
    rw [ih]
    congr 1
    by_cases h1 : c = 92
    · subst h1
      simp [Replacer.replacement, quoteEscaper, NewReplacer, e1]
    · by_cases h2 : c = 34
      · subst h2
        simp [Replacer.replacement, quoteEscaper, NewReplacer, e2]
      · have b1 : (92 == c) = false := beq_false_of_ne (fun h => h1 h.symm)
        have b2 : (34 == c) = false := beq_false_of_ne (fun h => h2 h.symm)
        simp [Replacer.replacement, quoteEscaper, NewReplacer, List.find?, h1, h2, b1, b2]

theorem fileHeader_eq (i : Nat) (file : File) :
    fileHeader i file =
      [(ascii "Content-Disposition", [fileDisposition i file.Name]),
        (ascii "Content-Type", [fileContentType file])] := by
  have hne : ¬ ascii "Content-Type" = ascii "Content-Disposition" := by decide
  have hlt : bytesLess (ascii "Content-Type") (ascii "Content-Disposition") = false := by decide
  simp [fileHeader, MIMEHeader.Set, hne, hlt]

theorem payloadHeader_lines :
    headerLines payloadHeader =
      ascii "Content-Disposition: form-data; name=\"payload_json\"\r\n" ++
        ascii "Content-Type: application/json\r\n" := by
  decide

theorem ascii_append (a b : String) : ascii (a ++ b) = ascii a ++ ascii b := by
  simp [ascii]

theorem fileHeader_lines (i : Nat) (file : File) :
    headerLines (fileHeader i file) =
      ascii "Content-Disposition: " ++ fileDisposition i file.Name ++ ascii "\r\n" ++
        (ascii "Content-Type: " ++ fileContentType file ++ ascii "\r\n") := by
  have e1 : ascii "Content-Disposition" ++ ascii ": " = ascii "Content-Disposition: " := by decide
  have e2 : ascii "Content-Type" ++ ascii ": " = ascii "Content-Type: " := by decide
  rw [fileHeader_eq]
  simp only [headerLines, valueLines, List.append_nil]
  rw [e1, e2]

theorem filePart_render (i : Nat) (file : File) :
    (filePart i file).render = headerLines (fileHeader i file) ++ ascii "\r\n" ++ file.Reader.bytes := by
  have e1 : ascii "Content-Disposition: form-data; name=\"" ++ ascii "file" =
      ascii "Content-Disposition: " ++ ascii "form-data; name=\"file" := by decide
  have e2 : ascii "\"" ++ ascii "; filename=\"" = ascii "\"; filename=\"" := by decide
  rw [fileHeader_lines]
  simp only [Part.render, filePart, fileDisposition, fileContentType, quoteEscaper_Replace_eq,
    List.append_assoc]
  rw [← List.append_assoc (ascii "Content-Disposition: form-data; name=\""), e1,
    ← List.append_assoc (ascii "\""), e2]
  simp only [List.append_assoc]

theorem payloadPart_render (json : Bytes) :
    (payloadPart json).render = headerLines payloadHeader ++ ascii "\r\n" ++ json := by
  rw [payloadHeader_lines]
  have e1 : ascii "Content-Disposition: form-data; name=\"" ++ ascii "payload_json" ++ ascii "\"" ++
      [] ++ ascii "\r\n" = ascii "Content-Disposition: form-data; name=\"payload_json\"\r\n" := by
    decide
  have e2 : ascii "Content-Type: " ++ ascii "application/json" ++ ascii "\r\n" =
      ascii "Content-Type: application/json\r\n" := by decide
  simp only [Part.render, payloadPart]
  rw [e1, ← e2]
  simp only [List.append_assoc]

/-! ## Properties of `io.Copy` and of the file loop -/

theorem copyLoop_eq (wr : Writer) (written : Nat) (reads : List Bytes) (final : Option Err) :
    (copyLoop wr written reads final).1 =
        { wr with w := wr.w ++ reads.foldr (fun blk acc => blk ++ acc) [] } ∧
      (copyLoop wr written reads final).2.2 = final := by
  induction reads generalizing wr written with
  | nil => simp [copyLoop]
  | cons blk blks ih =>
    simp only [copyLoop, Writer.partWrite, bufferWrite, List.foldr_cons]
    obtain ⟨h1, h2⟩ := ih { wr with w := wr.w ++ blk } (written + blk.length)
    rw [h1, h2]
    simp

theorem ioCopy_eq (wr : Writer) (reader : Reader) :
    ∃ n, ioCopy wr reader = ({ wr with w := wr.w ++ reader.bytes }, n, reader.err) := by
  obtain ⟨h1, h2⟩ := copyLoop_eq wr 0 reader.reads reader.err
  refine ⟨(copyLoop wr 0 reader.reads reader.err).2.1, ?_⟩
  unfold ioCopy Reader.bytes
  exact Prod.ext h1 (Prod.ext rfl h2)

theorem fileLoop_step (wr : Writer) (i : Nat) (file : File) (files : List File) :
    fileLoop wr i (file :: files) =
      match file.Reader.err with
      | some err =>
        ({ w := wr.w ++ ((if wr.lastpart then ascii "\r\n--" ++ wr.boundary ++ ascii "\r\n"
              else ascii "--" ++ wr.boundary ++ ascii "\r\n") ++
              headerLines (fileHeader i file) ++ ascii "\r\n") ++ file.Reader.bytes,
            boundary := wr.boundary, lastpart := true },
          some (Err.wrapf "failed to copy file: %w" err))
      | none =>
        fileLoop
          { w := wr.w ++ ((if wr.lastpart then ascii "\r\n--" ++ wr.boundary ++ ascii "\r\n"
              else ascii "--" ++ wr.boundary ++ ascii "\r\n") ++
              headerLines (fileHeader i file) ++ ascii "\r\n") ++ file.Reader.bytes,
            boundary := wr.boundary, lastpart := true }
          (i + 1) files := by
  rw [fileLoop]
  simp only [Writer.CreatePart, bufferWrite]
  obtain ⟨n, hn⟩ := ioCopy_eq
    { w := wr.w ++ ((if wr.lastpart then ascii "\r\n--" ++ wr.boundary ++ ascii "\r\n"
              else ascii "--" ++ wr.boundary ++ ascii "\r\n") ++
              headerLines (fileHeader i file) ++ ascii "\r\n"),
      boundary := wr.boundary, lastpart := true } file.Reader
  rw [hn]
  cases file.Reader.err <;> rfl

theorem fileLoop_success (wr : Writer) (i : Nat) (files : List File)
    (hlast : wr.lastpart = true) (hr : allReadersSucceed files) :
    fileLoop wr i files =
      ({ w := wr.w ++ laterParts wr.boundary (filePartsFrom i files),
          boundary := wr.boundary, lastpart := true }, none) := by
  induction files generalizing wr i with
  | nil =>
    cases wr
    simp_all [fileLoop, filePartsFrom, laterParts]
  | cons file files ih =>
    have hf : file.Reader.err = none := hr file (List.mem_cons_self _ _)
    have hrest : allReadersSucceed files := fun f hmem => hr f (List.mem_cons_of_mem _ hmem)
    rw [fileLoop_step, hf]
    simp only
    rw [ih _ (i + 1) rfl hrest]
    simp only [hlast, if_true, filePartsFrom, laterParts, filePart_render, List.append_assoc]

theorem fileLoop_failure (wr : Writer) (i : Nat) (before : List File) (file : File)
    (after : List File) (e : Err) (hlast : wr.lastpart = true)
    (hbefore : allReadersSucceed before) (hfile : file.Reader.err = some e) :
    (fileLoop wr i (before ++ file :: after)).2 =
      some (Err.wrapf "failed to copy file: %w" e) := by
  induction before generalizing wr i with
  | nil =>
    rw [List.nil_append, fileLoop_step, hfile]
  | cons f fs ih =>
    have hf : f.Reader.err = none := hbefore f (List.mem_cons_self _ _)
    have hrest : allReadersSucceed fs := fun g hmem => hbefore g (List.mem_cons_of_mem _ hmem)
    rw [List.cons_append, fileLoop_step, hf]
    exact ih _ (i + 1) rfl hrest

theorem fileLoop_error_of_failing_reader (wr : Writer) (i : Nat) (files : List File)
    (h : ∃ f ∈ files, f.Reader.err ≠ none) : (fileLoop wr i files).2 ≠ none := by
  induction files generalizing wr i with
  | nil =>
    obtain ⟨f, hmem, _⟩ := h
    cases hmem
  | cons file files ih =>
    rw [fileLoop_step]
    cases hfile : file.Reader.err with
    | some e => simp
    | none =>
      simp only
      apply ih
      obtain ⟨f, hmem, hne⟩ := h
      rcases List.mem_cons.mp hmem with rfl | hmem'
      · exact absurd hfile hne
      · exact ⟨f, hmem', hne⟩

/-! ## Properties of `multipartBodyWithJSON` -/

theorem multipartBodyWithJSON_marshal_error {α : Type} (jsonMarshal : α → Bytes × Option Err)
    (boundary : Bytes) (data : α) (files : List File) (p : Bytes) (e : Err)
    (h : jsonMarshal data = (p, some e)) :
    multipartBodyWithJSON jsonMarshal boundary data files =
      { contentType := [], body := none,
        err := some (Err.wrapf "failed to marshal payload: %w" e) } := by
  unfold multipartBodyWithJSON
  rw [h]

theorem multipartBodyWithJSON_eq {α : Type} (jsonMarshal : α → Bytes × Option Err)
    (boundary : Bytes) (data : α) (files : List File) (json : Bytes)
    (h : jsonMarshal data = (json, none)) :
    multipartBodyWithJSON jsonMarshal boundary data files =
      match fileLoop
        { w := ascii "--" ++ boundary ++ ascii "\r\n" ++ (payloadPart json).render,
          boundary := boundary, lastpart := true } 0 files with
      | (_, some err) => { contentType := [], body := none, err := some err }
      | (writer3, none) =>
        { contentType :=
            Writer.FormDataContentType { w := [], boundary := writer3.boundary, lastpart := false },
          body := some (writer3.w ++ (ascii "\r\n--" ++ writer3.boundary ++ ascii "--\r\n")),
          err := none } := by
  unfold multipartBodyWithJSON
  rw [h]
  simp only [NewWriter, Writer.CreatePart, Writer.partWrite, bufferWrite, Writer.Close,
    payloadPart_render, List.nil_append, List.append_assoc, Bool.false_eq_true, if_false]
  rcases fileLoop _ 0 files with ⟨w3, _ | e⟩
  · simp [Writer.FormDataContentType]
  · rfl

theorem multipartBodyWithJSON_success {α : Type} (jsonMarshal : α → Bytes × Option Err)
    (boundary : Bytes) (data : α) (files : List File) (json : Bytes)
    (hjson : jsonMarshal data = (json, none)) (hr : allReadersSucceed files) :
    multipartBodyWithJSON jsonMarshal boundary data files =
      { contentType :=
          Writer.FormDataContentType { w := [], boundary := boundary, lastpart := false },
        body := some (frame boundary (expectedParts json files)),
        err := none } := by
  rw [multipartBodyWithJSON_eq jsonMarshal boundary data files json hjson,
    fileLoop_success _ 0 files rfl hr]
  simp only [frame, expectedParts, List.append_assoc]

theorem multipartBodyWithJSON_no_partial_body {α : Type} (jsonMarshal : α → Bytes × Option Err)
    (boundary : Bytes) (data : α) (files : List File)
    (herr : (multipartBodyWithJSON jsonMarshal boundary data files).err ≠ none) :
    (multipartBodyWithJSON jsonMarshal boundary data files).contentType = [] ∧
      (multipartBodyWithJSON jsonMarshal boundary data files).body = none := by
  rcases hm : jsonMarshal data with ⟨json, _ | e⟩
  · rw [multipartBodyWithJSON_eq jsonMarshal boundary data files json hm] at herr ⊢
    rcases hl : fileLoop
      { w := ascii "--" ++ boundary ++ ascii "\r\n" ++ (payloadPart json).render,
        boundary := boundary, lastpart := true } 0 files with ⟨w3, _ | e⟩
    · rw [hl] at herr
      exact absurd rfl herr
    · exact ⟨rfl, rfl⟩
  · rw [multipartBodyWithJSON_marshal_error jsonMarshal boundary data files json e hm]
    exact ⟨rfl, rfl⟩

theorem multipartBodyWithJSON_copy_error {α : Type} (jsonMarshal : α → Bytes × Option Err)
    (boundary : Bytes) (data : α) (json : Bytes) (before : List File) (file : File)
    (after : List File) (e : Err) (hjson : jsonMarshal data = (json, none))
    (hbefore : allReadersSucceed before) (hfile : file.Reader.err = some e) :
    multipartBodyWithJSON jsonMarshal boundary data (before ++ file :: after) =
      { contentType := [], body := none, err := some (Err.wrapf "failed to copy file: %w" e) } := by
  rw [multipartBodyWithJSON_eq jsonMarshal boundary data _ json hjson]
  have h := fileLoop_failure
    { w := ascii "--" ++ boundary ++ ascii "\r\n" ++ (payloadPart json).render,
      boundary := boundary, lastpart := true } 0 before file after e rfl hbefore hfile
  rcases hl : fileLoop _ 0 (before ++ file :: after) with ⟨w3, r⟩
  rw [hl] at h
  simp only at h
  subst h
  rfl

theorem multipartBodyWithJSON_fails_of_failing_reader {α : Type}
    (jsonMarshal : α → Bytes × Option Err) (boundary : Bytes) (data : α) (files : List File)
    (h : ∃ f ∈ files, f.Reader.err ≠ none) :
    (multipartBodyWithJSON jsonMarshal boundary data files).err ≠ none := by
  rcases hm : jsonMarshal data with ⟨json, _ | e⟩
  · rw [multipartBodyWithJSON_eq jsonMarshal boundary data files json hm]
    have hl := fileLoop_error_of_failing_reader
      { w := ascii "--" ++ boundary ++ ascii "\r\n" ++ (payloadPart json).render,
        boundary := boundary, lastpart := true } 0 files h
    rcases hf : fileLoop _ 0 files with ⟨w3, _ | e⟩
    · rw [hf] at hl
      exact absurd rfl hl
    · simp
  · rw [multipartBodyWithJSON_marshal_error jsonMarshal boundary data files json e hm]
    simp

theorem filePartsFrom_length (i : Nat) (files : List File) :
    (filePartsFrom i files).length = files.length := by
  induction files generalizing i with
  | nil => rfl
  | cons f fs ih => simp [filePartsFrom, ih]

theorem filePartsFrom_getElem? (i k : Nat) (files : List File) :
    (filePartsFrom i files)[k]? = (files[k]?).map (filePart (i + k)) := by
  induction files generalizing i k with
  | nil => simp [filePartsFrom]
  | cons f fs ih =>
    cases k with
    | zero => simp [filePartsFrom]
    | succ k =>
      simp only [filePartsFrom, List.getElem?_cons_succ]
      rw [ih (i + 1) k, Nat.add_assoc, Nat.add_comm 1 k]

/-- C6. With a payload that serialises to `json`, any boundary token and an
empty file list, `multipartBodyWithJSON` succeeds and the body is exactly the
single `payload_json` part: `--B\r\n`, the `Content-Disposition` line, the
`Content-Type: application/json` line, an empty line, `json`, and the closing
delimiter `\r\n--B--\r\n`. -/
theorem multipartBodyWithJSON_no_files {α : Type} (jsonMarshal : α → Bytes × Option Err)
    (boundary : Bytes) (data : α) (json : Bytes) (hjson : jsonMarshal data = (json, none)) :
    (multipartBodyWithJSON jsonMarshal boundary data []).err = none ∧
      (multipartBodyWithJSON jsonMarshal boundary data []).body =
        some (ascii "--" ++ boundary ++ ascii "\r\n" ++
          ascii "Content-Disposition: form-data; name=\"payload_json\"\r\n" ++
          ascii "Content-Type: application/json\r\n" ++
          ascii "\r\n" ++ json ++ ascii "\r\n--" ++ boundary ++ ascii "--\r\n") := by
  have hr : allReadersSucceed [] := fun f hmem => by cases hmem
  rw [multipartBodyWithJSON_success jsonMarshal boundary data [] json hjson hr]
  refine ⟨rfl, ?_⟩
  simp only [frame, expectedParts, filePartsFrom, laterParts, payloadPart_render,
    payloadHeader_lines, List.append_assoc, List.nil_append]

/-- C6 for the payload `{"content":"hi"}` and the boundary `XYZ`. -/
theorem multipartBodyWithJSON_no_files_witness :
    marshalRaw (ascii "\x7b\"content\":\"hi\"\x7d") = (ascii "\x7b\"content\":\"hi\"\x7d", none) ∧
      (multipartBodyWithJSON marshalRaw (ascii "XYZ") (ascii "\x7b\"content\":\"hi\"\x7d") []).err = none ∧
      (multipartBodyWithJSON marshalRaw (ascii "XYZ") (ascii "\x7b\"content\":\"hi\"\x7d") []).body =
        some (ascii ("--XYZ\r\nContent-Disposition: form-data; name=\"payload_json\"\r\n" ++
          "Content-Type: application/json\r\n\r\n\x7b\"content\":\"hi\"\x7d\r\n--XYZ--\r\n")) :=
  ⟨rfl,
    (multipartBodyWithJSON_no_files marshalRaw (ascii "XYZ") (ascii "\x7b\"content\":\"hi\"\x7d")
      (ascii "\x7b\"content\":\"hi\"\x7d") rfl).1,
    (multipartBodyWithJSON_no_files marshalRaw (ascii "XYZ") (ascii "\x7b\"content\":\"hi\"\x7d")
      (ascii "\x7b\"content\":\"hi\"\x7d") rfl).2.trans (by decide)⟩

/-- C7. With a payload that serialises to `json` and `N` files whose readers
all succeed, `multipartBodyWithJSON` succeeds and the body is the framing of
exactly `N + 1` parts: first the `payload_json` part, then, for each position
`i < N` in input order, the part of the file at position `i`, whose form-field
name is `file` followed by the decimal digits of `i`. Nothing is assumed about
the file names, which may coincide. -/
theorem multipartBodyWithJSON_file_parts {α : Type} (jsonMarshal : α → Bytes × Option Err)
    (boundary : Bytes) (data : α) (files : List File) (json : Bytes)
    (hjson : jsonMarshal data = (json, none)) (hr : allReadersSucceed files) :
    (multipartBodyWithJSON jsonMarshal boundary data files).err = none ∧
      (multipartBodyWithJSON jsonMarshal boundary data files).body =
        some (frame boundary (expectedParts json files)) ∧
      (expectedParts json files).length = files.length + 1 ∧
      (expectedParts json files)[0]? = some (payloadPart json) ∧
      (payloadPart json).name = ascii "payload_json" ∧
      ∀ (i : Nat) (hi : i < files.length),
        (expectedParts json files)[i + 1]? = some (filePart i files[i]) ∧
          (filePart i files[i]).name = ascii "file" ++ decimal i := by
  rw [multipartBodyWithJSON_success jsonMarshal boundary data files json hjson hr]
  refine ⟨rfl, rfl, ?_, ?_, rfl, ?_⟩
  · simp [expectedParts, filePartsFrom_length]
  · simp [expectedParts]
  · intro i hi
    refine ⟨?_, rfl⟩
    simp only [expectedParts, List.getElem?_cons_succ]
    rw [filePartsFrom_getElem?, List.getElem?_eq_getElem hi, Option.map_some', Nat.zero_add]

/-- C7 for two files that share the name `a.png`: three parts, the file parts
named `file0` and `file1`. -/
theorem multipartBodyWithJSON_file_parts_witness :
    marshalRaw (ascii "\x7b\x7d") = (ascii "\x7b\x7d", none) ∧ allReadersSucceed twoFilesSameName ∧
      (multipartBodyWithJSON marshalRaw (ascii "XYZ") (ascii "\x7b\x7d") twoFilesSameName).body =
        some (ascii ("--XYZ\r\nContent-Disposition: form-data; name=\"payload_json\"\r\n" ++
          "Content-Type: application/json\r\n\r\n\x7b\x7d" ++
          "\r\n--XYZ\r\nContent-Disposition: form-data; name=\"file0\"; filename=\"a.png\"\r\n" ++
          "Content-Type: application/octet-stream\r\n\r\none" ++
          "\r\n--XYZ\r\nContent-Disposition: form-data; name=\"file1\"; filename=\"a.png\"\r\n" ++
          "Content-Type: application/octet-stream\r\n\r\ntwo" ++
          "\r\n--XYZ--\r\n")) ∧
      (expectedParts (ascii "\x7b\x7d") twoFilesSameName).length = 3 :=
  ⟨rfl, by decide,
    (multipartBodyWithJSON_file_parts marshalRaw (ascii "XYZ") (ascii "\x7b\x7d") twoFilesSameName
      (ascii "\x7b\x7d") rfl (by decide)).2.1.trans (by decide),
    (multipartBodyWithJSON_file_parts marshalRaw (ascii "XYZ") (ascii "\x7b\x7d") twoFilesSameName
      (ascii "\x7b\x7d") rfl (by decide)).2.2.1⟩

/-- C9. The `Content-Type` value of a file part is the file's `ContentType`
when that is not empty and `application/octet-stream` when it is; the header
of the part is the same whatever the file's reader delivers. For a file with
empty `ContentType` whose bytes start with the PNG signature the part is
written with `Content-Type: application/octet-stream`. -/
theorem file_part_content_type (i : Nat) (file : File) :
    (fileHeader i file).Values (ascii "Content-Type") =
        [if file.ContentType = [] then ascii "application/octet-stream" else file.ContentType] ∧
      (∀ reader : Reader, fileHeader i { file with Reader := reader } = fileHeader i file) ∧
      (multipartBodyWithJSON marshalRaw (ascii "XYZ") (ascii "\x7b\x7d") [pngFileUntyped]).body =
        some (ascii ("--XYZ\r\nContent-Disposition: form-data; name=\"payload_json\"\r\n" ++
          "Content-Type: application/json\r\n\r\n\x7b\x7d" ++
          "\r\n--XYZ\r\nContent-Disposition: form-data; name=\"file0\"; filename=\"cat.png\"\r\n" ++
          "Content-Type: application/octet-stream\r\n\r\n") ++
          [137, 80, 78, 71, 13, 10, 26, 10, 0, 0, 0, 0] ++ ascii "\r\n--XYZ--\r\n") := by
  have hne : ¬ ascii "Content-Type" = ascii "Content-Disposition" := by decide
  refine ⟨?_, ?_, by decide⟩
  · rw [fileHeader_eq]
    simp [MIMEHeader.Values, fileContentType, hne]
  · intro reader
    rfl

/-- C10. When the payload serialises and the first file whose reader fails
does so with the read error `e`, `multipartBodyWithJSON` returns the empty
content type, a nil body and the error `failed to copy file: %w` wrapping `e`.
Whatever the payload, a file list with a failing reader makes the call fail,
and every failing call returns the empty content type and a nil body. -/
theorem multipartBodyWithJSON_read_error {α : Type} (jsonMarshal : α → Bytes × Option Err)
    (boundary : Bytes) (data : α) (json : Bytes) (before : List File) (file : File)
    (after : List File) (e : Err) (hjson : jsonMarshal data = (json, none))
    (hbefore : allReadersSucceed before) (hfile : file.Reader.err = some e) :
    multipartBodyWithJSON jsonMarshal boundary data (before ++ file :: after) =
        { contentType := [], body := none,
          err := some (Err.wrapf "failed to copy file: %w" e) } ∧
      (Err.wrapf "failed to copy file: %w" e).unwrap = some e ∧
      (∀ (marshal : α → Bytes × Option Err) (b : Bytes) (d : α) (files : List File),
        (∃ f ∈ files, f.Reader.err ≠ none) →
          (multipartBodyWithJSON marshal b d files).err ≠ none) ∧
      (∀ (marshal : α → Bytes × Option Err) (b : Bytes) (d : α) (files : List File),
        (multipartBodyWithJSON marshal b d files).err ≠ none →
          (multipartBodyWithJSON marshal b d files).contentType = [] ∧
            (multipartBodyWithJSON marshal b d files).body = none) :=
  ⟨multipartBodyWithJSON_copy_error jsonMarshal boundary data json before file after e hjson
      hbefore hfile,
    rfl,
    fun marshal b d files h => multipartBodyWithJSON_fails_of_failing_reader marshal b d files h,
    fun marshal b d files h => multipartBodyWithJSON_no_partial_body marshal b d files h⟩

/-- C10 for the file list `[pngFileUntyped, brokenFile, pngFileUntyped]`: the
second reader fails after two bytes, and the call returns no body. -/
theorem multipartBodyWithJSON_read_error_witness :
    marshalRaw (ascii "\x7b\x7d") = (ascii "\x7b\x7d", none) ∧ allReadersSucceed [pngFileUntyped] ∧
      brokenFile.Reader.err = some (Err.external "unexpected EOF") ∧
      multipartBodyWithJSON marshalRaw (ascii "XYZ") (ascii "\x7b\x7d")
          ([pngFileUntyped] ++ brokenFile :: [pngFileUntyped]) =
        { contentType := [], body := none,
          err := some (Err.wrapf "failed to copy file: %w" (Err.external "unexpected EOF")) } :=
  ⟨rfl, by decide, rfl,
    (multipartBodyWithJSON_read_error marshalRaw (ascii "XYZ") (ascii "\x7b\x7d") (ascii "\x7b\x7d")
      [pngFileUntyped] brokenFile [pngFileUntyped] (Err.external "unexpected EOF") rfl
      (by decide) rfl).1⟩


/-! ## More on the encoder and on `bytesToBase64Data` -/

theorem encodeByte_ne_padding : ∀ i, i < 64 → encodeByte i ≠ StdPadding := by
  decide

theorem Encode_length (l : Bytes) : (Encode l).length = 4 * ((l.length + 2) / 3) := by
  induction l using Encode.induct with
  | case1 a b c rest ih =>
    simp only [Encode, List.length_cons, ih]
    omega
  | case2 a b => simp [Encode]
  | case3 a => simp [Encode]
  | case4 => simp [Encode]

theorem Encode_no_padding (l : Bytes) (h : l.length % 3 = 0) : StdPadding ∉ Encode l := by
  induction l using Encode.induct with
  | case1 a b c rest ih =>
    have hrest : rest.length % 3 = 0 := by
      simp only [List.length_cons] at h
      omega
    have h64 : ∀ x : Nat, StdPadding ≠ encodeByte (x % 64) := fun x heq =>
      encodeByte_ne_padding (x % 64) (Nat.mod_lt _ (by decide)) heq.symm
    simp only [Encode, List.mem_cons, not_or]
    exact ⟨h64 _, h64 _, h64 _, h64 _, ih hrest⟩
  | case2 a b => simp at h
  | case3 a => simp at h
  | case4 => simp [Encode]

theorem Encode_take_eq_iff (data : Bytes) :
    Encode (data.take (3 * (data.length / 3))) = Encode data ↔ data.length % 3 = 0 := by
  constructor
  · intro h
    have hl := congrArg List.length h
    rw [Encode_length, Encode_length, List.length_take] at hl
    omega
  · intro h
    have : 3 * (data.length / 3) = data.length := by omega
    rw [this, List.take_length]

theorem getImageMimeType_cases (data : Bytes) :
    getImageMimeType data = none ∨
      getImageMimeType data = some ([], some ErrUnsupportedImageType) ∨
      ∃ fmt, getImageMimeType data = some (mimeOf fmt, none) := by
  unfold getImageMimeType
  rcases casePNG data with _ | _ | _
  · exact Or.inl rfl
  · rcases caseJPEG data with _ | _ | _
    · exact Or.inl rfl
    · rcases caseGIF data with _ | _ | _
      · exact Or.inl rfl
      · rcases caseWEBP data with _ | _ | _
        · exact Or.inl rfl
        · exact Or.inr (Or.inl rfl)
        · exact Or.inr (Or.inr ⟨Format.webp, rfl⟩)
      · exact Or.inr (Or.inr ⟨Format.gif, rfl⟩)
    · exact Or.inr (Or.inr ⟨Format.jpeg, rfl⟩)
  · exact Or.inr (Or.inr ⟨Format.png, rfl⟩)

theorem bytesToBase64Data_of_panic (data : Bytes) (h : getImageMimeType data = none) :
    bytesToBase64Data data = none := by
  simp [bytesToBase64Data, bytesToBase64DataRun, h]

theorem bytesToBase64Data_of_error (data mime : Bytes) (e : Err)
    (h : getImageMimeType data = some (mime, some e)) :
    bytesToBase64Data data = some ([], some e) := by
  simp [bytesToBase64Data, bytesToBase64DataRun, h]

theorem bytesToBase64Data_of_mime (data mime : Bytes)
    (h : getImageMimeType data = some (mime, none)) :
    bytesToBase64Data data =
      some (ascii "data:" ++ mime ++ ascii ";base64," ++
        Encode (data.take (3 * (data.length / 3))), none) := by
  simp [bytesToBase64Data, bytesToBase64DataRun_eq data mime h]

theorem bytesToBase64Data_error_iff (data : Bytes) :
    (bytesToBase64Data data).map Prod.snd = (getImageMimeType data).map Prod.snd ∧
      ((∃ s e, bytesToBase64Data data = some (s, some e)) ↔
        (∃ mime e, getImageMimeType data = some (mime, some e))) ∧
      ∀ s e, bytesToBase64Data data = some (s, some e) →
        s = [] ∧ e = ErrUnsupportedImageType ∧
          getImageMimeType data = some ([], some ErrUnsupportedImageType) := by
  rcases getImageMimeType_cases data with h | h | ⟨fmt, h⟩
  · have hb := bytesToBase64Data_of_panic data h
    simp [hb, h]
  · have hb := bytesToBase64Data_of_error data [] _ h
    rw [hb, h]
    refine ⟨rfl, ⟨fun _ => ⟨_, _, rfl⟩, fun _ => ⟨_, _, rfl⟩⟩, ?_⟩
    intro s e hse
    simp only [Option.some.injEq, Prod.mk.injEq] at hse
    exact ⟨hse.1.symm, hse.2.symm, rfl⟩
  · have hb := bytesToBase64Data_of_mime data _ h
    rw [hb, h]
    simp

/-- C13. `bytesToBase64Data` and `getImageMimeType` end the same way on every
buffer: the error of the one is the error of the other, so the one returns an
error exactly when the other does, and when `bytesToBase64Data` returns an
error it is the unwrapped sentinel `ErrUnsupportedImageType` of the sniffer,
together with the empty string. -/
theorem bytesToBase64Data_fails_iff_sniffer_fails (data : Bytes) :
    (bytesToBase64Data data).map Prod.snd = (getImageMimeType data).map Prod.snd ∧
      ((∃ s e, bytesToBase64Data data = some (s, some e)) ↔
        (∃ mime e, getImageMimeType data = some (mime, some e))) ∧
      ∀ s e, bytesToBase64Data data = some (s, some e) →
        s = [] ∧ e = ErrUnsupportedImageType ∧
          getImageMimeType data = some ([], some ErrUnsupportedImageType) :=
  bytesToBase64Data_error_iff data

/-- C13 at the all-zero buffer of 12 bytes, on which both functions return
`ErrUnsupportedImageType`. -/
theorem bytesToBase64Data_fails_iff_sniffer_fails_witness :
    bytesToBase64Data (List.replicate 12 0) = some ([], some ErrUnsupportedImageType) ∧
      getImageMimeType (List.replicate 12 0) = some ([], some ErrUnsupportedImageType) :=
  ⟨by decide,
    ((bytesToBase64Data_fails_iff_sniffer_fails (List.replicate 12 0)).2.2 []
      ErrUnsupportedImageType (by decide)).2.2⟩

/-- C14 fails on the code. For the 14-byte buffer `jpegFourteen`, classified as
`"image/jpeg"`, the returned string has 39 bytes, the 23 bytes of
`data:image/jpeg;base64,` and 16 of payload, while the claimed length
`len("data:") + len(mime) + len(";base64,") + 4 * ceil(14 / 3)` is 43. -/
theorem bytesToBase64Data_length_short :
    getImageMimeType jpegFourteen = some (ascii "image/jpeg", none) ∧
      (bytesToBase64Data jpegFourteen).map (fun r => (r.1.length, r.2)) = some (39, none) ∧
      (ascii "data:").length + (ascii "image/jpeg").length + (ascii ";base64,").length +
        4 * ((jpegFourteen.length + 2) / 3) = 43 := by
  decide

theorem afterMarker_skip (m pre p : Bytes) (hpre : 59 ∉ pre) :
    afterMarker (59 :: m) (pre ++ (59 :: m) ++ p) = p := by
  induction pre with
  | nil =>
    have hp : (59 :: m).isPrefixOf (59 :: (m ++ p)) = true := by
      rw [List.isPrefixOf_iff_prefix]
      exact List.prefix_append (59 :: m) p
    simp only [List.nil_append, List.cons_append, afterMarker, hp, if_true]
    simp
  | cons c cs ih =>
    have hc : ¬ 59 = c := fun h => hpre (h ▸ List.mem_cons_self _ _)
    have hcs : 59 ∉ cs := fun h => hpre (List.mem_cons_of_mem _ h)
    have hb : (59 == c) = false := beq_false_of_ne hc
    simp only [List.cons_append, afterMarker, List.isPrefixOf, hb, Bool.false_and,
      Bool.false_eq_true, if_false]
    have := ih hcs
    simpa using this

theorem afterMarker_dataURI (fmt : Format) (p : Bytes) :
    afterMarker (ascii ";base64,") (ascii "data:" ++ mimeOf fmt ++ ascii ";base64," ++ p) = p := by
  have hm : ascii ";base64," = 59 :: ascii "base64," := by decide
  have hpre : 59 ∉ ascii "data:" ++ mimeOf fmt := by
    cases fmt <;> decide
  rw [hm]
  exact afterMarker_skip _ _ p hpre

theorem bytesToBase64Data_success (data s : Bytes)
    (h : bytesToBase64Data data = some (s, none)) :
    ∃ fmt, getImageMimeType data = some (mimeOf fmt, none) ∧
      s = ascii "data:" ++ mimeOf fmt ++ ascii ";base64," ++
        Encode (data.take (3 * (data.length / 3))) := by
  rcases getImageMimeType_cases data with hg | hg | ⟨fmt, hg⟩
  · rw [bytesToBase64Data_of_panic data hg] at h
    cases h
  · rw [bytesToBase64Data_of_error data [] _ hg] at h
    simp at h
  · rw [bytesToBase64Data_of_mime data _ hg] at h
    simp only [Option.some.injEq, Prod.mk.injEq, and_true] at h
    exact ⟨fmt, hg, h.symm⟩

/-- C16. When `bytesToBase64Data` succeeds on a buffer of `n` bytes, the
returned string is `data:<mime>;base64,` followed by a payload that is the
standard base64 encoding of the first `3 * (n / 3)` bytes only: it has exactly
`4 * (n / 3)` bytes, contains no padding byte `'='`, and is the padded
encoding of all of `data` exactly when `n` is a multiple of 3. -/
theorem bytesToBase64Data_payload_truncated (data s : Bytes)
    (h : bytesToBase64Data data = some (s, none)) :
    ∃ mime, getImageMimeType data = some (mime, none) ∧
      s = ascii "data:" ++ mime ++ ascii ";base64," ++
        Encode (data.take (3 * (data.length / 3))) ∧
      afterMarker (ascii ";base64,") s = Encode (data.take (3 * (data.length / 3))) ∧
      (afterMarker (ascii ";base64,") s).length = 4 * (data.length / 3) ∧
      StdPadding ∉ afterMarker (ascii ";base64,") s ∧
      (afterMarker (ascii ";base64,") s = Encode data ↔ data.length % 3 = 0) := by
  obtain ⟨fmt, hg, hs⟩ := bytesToBase64Data_success data s h
  have hlen : (data.take (3 * (data.length / 3))).length = 3 * (data.length / 3) := by
    rw [List.length_take]
    omega
  have ha : afterMarker (ascii ";base64,") s = Encode (data.take (3 * (data.length / 3))) := by
    rw [hs]
    exact afterMarker_dataURI fmt _
  refine ⟨mimeOf fmt, hg, hs, ha, ?_, ?_, ?_⟩
  · rw [ha, Encode_length, hlen]
    omega
  · rw [ha]
    exact Encode_no_padding _ (by rw [hlen]; omega)
  · rw [ha]
    exact Encode_take_eq_iff data

/-- C16 at the 13-byte buffer `pngThirteen`: the payload is the 16 bytes
`iVBORw0KGgoAAAAN`. -/
theorem bytesToBase64Data_payload_truncated_witness :
    bytesToBase64Data pngThirteen =
        some (ascii "data:image/png;base64,iVBORw0KGgoAAAAN", none) ∧
      afterMarker (ascii ";base64,") (ascii "data:image/png;base64,iVBORw0KGgoAAAAN") =
        ascii "iVBORw0KGgoAAAAN" ∧
      (afterMarker (ascii ";base64,") (ascii "data:image/png;base64,iVBORw0KGgoAAAAN")).length =
        4 * (pngThirteen.length / 3) :=
  ⟨by decide, by decide,
    (bytesToBase64Data_payload_truncated pngThirteen
      (ascii "data:image/png;base64,iVBORw0KGgoAAAAN") (by decide)).choose_spec.2.2.2.1⟩


/-! ## `getImageMimeType` on short buffers -/

theorem sliceEqual_none (data : Bytes) (lo hi : Nat) (pat : Bytes) (h : data.length < hi) :
    sliceEqual data lo hi pat = none := by
  have hn : ¬ (lo ≤ hi ∧ hi ≤ data.length) := fun hc => by omega
  simp [sliceEqual, sliceExpr, hn]

theorem casePNG_eq_of_le (d : Bytes) (h : 8 ≤ d.length) :
    casePNG d = some (decide (isPNG d)) := by
  unfold casePNG
  rw [sliceEqual_eq d 0 8 _ (by decide) h, Option.some.injEq, decide_eq_decide]
  rfl

theorem caseJPEG_eq_of_le (d : Bytes) (h : 10 ≤ d.length) :
    caseJPEG d = some (decide (isJPEG d)) := by
  unfold caseJPEG
  rw [sliceEqual_eq d 0 3 _ (by decide) (by omega),
    sliceEqual_eq d 6 10 _ (by decide) h,
    sliceEqual_eq d 6 10 _ (by decide) h]
  by_cases h1 : hasAt d 0 [255, 216, 255] <;> by_cases h2 : hasAt d 6 (ascii "JFIF") <;>
    by_cases h3 : hasAt d 6 (ascii "Exif") <;> simp [orElse, isJPEG, h1, h2, h3]

theorem caseJPEG_eq_of_lt (d : Bytes) (h8 : 8 ≤ d.length) (h10 : d.length < 10) :
    caseJPEG d = if hasAt d 0 [255, 216, 255] then some true else none := by
  unfold caseJPEG
  rw [sliceEqual_eq d 0 3 _ (by decide) (by omega), sliceEqual_none d 6 10 _ h10]
  by_cases h1 : hasAt d 0 [255, 216, 255] <;> simp [orElse, h1]

theorem caseGIF_eq_of_le (d : Bytes) (h : 6 ≤ d.length) :
    caseGIF d = some (decide (isGIF d)) := by
  unfold caseGIF
  rw [sliceEqual_eq d 0 6 _ (by decide) h, sliceEqual_eq d 0 6 _ (by decide) h]
  by_cases h1 : hasAt d 0 [71, 73, 70, 56, 55, 97] <;>
    by_cases h2 : hasAt d 0 [71, 73, 70, 56, 57, 97] <;>
      simp [orElse, isGIF, ascii_GIF87a, ascii_GIF89a, h1, h2]

theorem caseWEBP_eq_of_lt (d : Bytes) (h4 : 4 ≤ d.length) (h12 : d.length < 12) :
    caseWEBP d = if hasAt d 0 (ascii "RIFF") then none else some false := by
  unfold caseWEBP
  rw [sliceEqual_eq d 0 4 _ (by decide) h4, sliceEqual_none d 8 12 _ h12]
  by_cases h1 : hasAt d 0 (ascii "RIFF") <;> simp [andThen, h1]

theorem getImageMimeType_eq_none_iff (data : Bytes) :
    getImageMimeType data = none ↔
      (data.length < 8 ∨
        (8 ≤ data.length ∧ data.length < 10 ∧ ¬ isPNG data ∧
          ¬ hasAt data 0 [0xFF, 0xD8, 0xFF]) ∨
        (10 ≤ data.length ∧ data.length < 12 ∧ ¬ isPNG data ∧ ¬ isJPEG data ∧ ¬ isGIF data ∧
          hasAt data 0 (ascii "RIFF"))) := by
  by_cases h8 : data.length < 8
  · have hp : casePNG data = none := sliceEqual_none data 0 8 _ h8
    simp [getImageMimeType, hp, h8]
  by_cases h10 : data.length < 10
  · have hp := casePNG_eq_of_le data (by omega)
    have hj := caseJPEG_eq_of_lt data (by omega) h10
    have hge : 8 ≤ data.length := by omega
    have hn10 : ¬ 10 ≤ data.length := by omega
    unfold getImageMimeType
    rw [hp, hj]
    by_cases h1 : isPNG data
    · simp [h1, h8, hn10]
    · by_cases h2 : hasAt data 0 [255, 216, 255]
      · simp [h1, h2, h8, hn10]
      · simp [h1, h2, h8, hn10, hge, h10]
  by_cases h12 : data.length < 12
  · have hp := casePNG_eq_of_le data (by omega)
    have hj := caseJPEG_eq_of_le data (by omega)
    have hg := caseGIF_eq_of_le data (by omega)
    have hw := caseWEBP_eq_of_lt data (by omega) h12
    have hge : 10 ≤ data.length := by omega
    unfold getImageMimeType
    rw [hp, hj, hg, hw]
    by_cases h1 : isPNG data
    · simp [h1, h8, h10]
    by_cases h2 : isJPEG data
    · simp [h1, h2, h8, h10]
    by_cases h3 : isGIF data
    · simp [h1, h2, h3, h8, h10]
    by_cases h4 : hasAt data 0 (ascii "RIFF")
    · simp [h1, h2, h3, h4, h8, h10, hge, h12]
    · simp [h1, h2, h3, h4, h8, h10]
  · have hge : 12 ≤ data.length := by omega
    rw [getImageMimeType_eq_classifySpec data hge]
    simp [h8, h10, h12]

/-- C17. With a buffer whose capacity is its length `n`, `getImageMimeType`
panics on an out-of-range slice expression exactly when `n < 8`, or
`8 ≤ n < 10` and the buffer starts neither with the PNG signature nor with
`FF D8 FF`, or `10 ≤ n < 12` and none of the PNG, JPEG and GIF checks matches
and bytes 0-3 are `RIFF`; otherwise, in particular for `n ≥ 12`, it returns.
The 8 bytes of the PNG signature give `"image/png"`, and ten zero bytes give
`ErrUnsupportedImageType`. -/
theorem getImageMimeType_out_of_range_iff (data : Bytes) :
    (getImageMimeType data = none ↔
      (data.length < 8 ∨
        (8 ≤ data.length ∧ data.length < 10 ∧ ¬ isPNG data ∧
          ¬ hasAt data 0 [0xFF, 0xD8, 0xFF]) ∨
        (10 ≤ data.length ∧ data.length < 12 ∧ ¬ isPNG data ∧ ¬ isJPEG data ∧ ¬ isGIF data ∧
          hasAt data 0 (ascii "RIFF")))) ∧
      (12 ≤ data.length → getImageMimeType data ≠ none) ∧
      getImageMimeType [137, 80, 78, 71, 13, 10, 26, 10] = some (ascii "image/png", none) ∧
      getImageMimeType (List.replicate 10 0) = some ([], some ErrUnsupportedImageType) := by
  refine ⟨getImageMimeType_eq_none_iff data, ?_, by decide, by decide⟩
  intro h
  rw [getImageMimeType_eq_classifySpec data h]
  simp

/-- C17 at the 10-byte buffer `RIFF` followed by six zero bytes, on which the
WEBP check panics in `data[8:12]`. -/
theorem getImageMimeType_out_of_range_iff_witness :
    getImageMimeType (ascii "RIFF" ++ [0, 0, 0, 0, 0, 0]) = none ∧
      12 ≤ (List.replicate 12 0 : Bytes).length ∧
      getImageMimeType (List.replicate 12 0) ≠ none :=
  ⟨(getImageMimeType_out_of_range_iff (ascii "RIFF" ++ [0, 0, 0, 0, 0, 0])).1.mpr (by decide),
    by decide,
    (getImageMimeType_out_of_range_iff (List.replicate 12 0)).2.1 (by decide)⟩


/-! ## The escaping of file names is reversible -/

theorem unescape_escapeSpec (s : Bytes) : unescape (escapeSpec s) = s := by
  induction s with
  | nil => rfl
  | cons c cs ih =>
    by_cases h1 : c = 92
    · subst h1
      simp [escapeSpec, unescape, ih]
    · by_cases h2 : c = 34
      · subst h2
        simp [escapeSpec, unescape, ih]
      · simp only [escapeSpec, h1, h2, if_false, List.singleton_append]
        rw [unescape, ih]
        intro d rest heq _
        exact h1 heq

theorem escapeSpec_length (s : Bytes) :
    (escapeSpec s).length = s.length + s.count 92 + s.count 34 := by
  induction s with
  | nil => rfl
  | cons c cs ih =>
    by_cases h1 : c = 92
    · subst h1
      simp [escapeSpec, ih]
      omega
    · by_cases h2 : c = 34
      · subst h2
        simp [escapeSpec, ih]
        omega
      · have b1 : (c == 92) = false := beq_false_of_ne h1
        have b2 : (c == 34) = false := beq_false_of_ne h2
        simp [escapeSpec, h1, h2, ih, List.count_cons, b1, b2]
        omega

theorem escapeSpec_append (s t : Bytes) : escapeSpec (s ++ t) = escapeSpec s ++ escapeSpec t := by
  induction s with
  | nil => rfl
  | cons c cs ih => simp [escapeSpec, ih]

theorem trailingBackslashes_append_backslash (l : Bytes) :
    trailingBackslashes (l ++ [92]) = trailingBackslashes l + 1 := by
  simp [trailingBackslashes, List.takeWhile]

theorem trailingBackslashes_append_other (l : Bytes) (c : Nat) (h : c ≠ 92) :
    trailingBackslashes (l ++ [c]) = 0 := by
  have b : (c == 92) = false := beq_false_of_ne h
  simp [trailingBackslashes, List.takeWhile, b]

theorem trailingBackslashes_escapeSpec_even (s : Bytes) :
    trailingBackslashes (escapeSpec s) % 2 = 0 := by
  induction s using List.reverseRecOn with
  | nil => rfl
  | append_singleton s c ih =>
    rw [escapeSpec_append]
    by_cases h1 : c = 92
    · subst h1
      have : escapeSpec s ++ escapeSpec [92] = (escapeSpec s ++ [92]) ++ [92] := by
        simp [escapeSpec]
      rw [this, trailingBackslashes_append_backslash, trailingBackslashes_append_backslash]
      omega
    · by_cases h2 : c = 34
      · subst h2
        have : escapeSpec s ++ escapeSpec [34] = (escapeSpec s ++ [92]) ++ [34] := by
          simp [escapeSpec]
        rw [this, trailingBackslashes_append_other _ 34 (by decide)]
      · have : escapeSpec s ++ escapeSpec [c] = escapeSpec s ++ [c] := by
          simp [escapeSpec, h1, h2]
        rw [this, trailingBackslashes_append_other _ c h1]

theorem quote_in_escapeSpec_at (s : Bytes) (i : Nat) (h : (escapeSpec s)[i]? = some 34) :
    trailingBackslashes ((escapeSpec s).take i) % 2 = 1 := by
  induction s using List.reverseRecOn generalizing i with
  | nil => simp [escapeSpec] at h
  | append_singleton s c ih =>
    rw [escapeSpec_append] at h ⊢
    by_cases hi : i < (escapeSpec s).length
    · rw [List.getElem?_append_left hi] at h
      rw [List.take_append_of_le_length (Nat.le_of_lt hi)]
      exact ih i h
    · have hge : (escapeSpec s).length ≤ i := Nat.le_of_not_lt hi
      rw [List.getElem?_append_right hge] at h
      obtain ⟨j, hj⟩ : ∃ j, i = (escapeSpec s).length + j :=
        ⟨i - (escapeSpec s).length, by omega⟩
      subst hj
      simp only [Nat.add_sub_cancel_left] at h
      rw [List.take_append]
      by_cases h1 : c = 92
      · subst h1
        exfalso
        match j, h with
        | 0, h => simp [escapeSpec] at h
        | 1, h => simp [escapeSpec] at h
        | (k + 2), h => simp [escapeSpec] at h
      · by_cases h2 : c = 34
        · subst h2
          match j, h with
          | 0, h => simp [escapeSpec] at h
          | 1, _ =>
            have : List.take 1 (escapeSpec [34]) = [92] := by decide
            rw [this, trailingBackslashes_append_backslash]
            have := trailingBackslashes_escapeSpec_even s
            omega
          | (k + 2), h => simp [escapeSpec] at h
        · exfalso
          match j, h with
          | 0, h =>
            simp [escapeSpec, h1, h2] at h
          | (k + 1), h => simp [escapeSpec, h1, h2] at h

theorem quote_in_escapeSpec (s before after : Bytes)
    (h : escapeSpec s = before ++ 34 :: after) : trailingBackslashes before % 2 = 1 := by
  have hi : (escapeSpec s)[before.length]? = some 34 := by
    rw [h, List.getElem?_append_right (Nat.le_refl _)]
    simp
  have ht : (escapeSpec s).take before.length = before := by
    rw [h]
    simp
  have := quote_in_escapeSpec_at s before.length hi
  rwa [ht] at this


/-- C18. For every file name `s`: reading each backslash of
`quoteEscaper.Replace(s)` together with the byte after it as that byte gives
`s` back; every double quote in `quoteEscaper.Replace(s)` is preceded by an
odd number of consecutive backslashes; names with the same escaped form are
equal; and the escaped length is `len(s)` plus the number of backslashes and
double quotes in `s`. -/
theorem quoteEscaper_reversible (s : Bytes) :
    unescape (quoteEscaper.Replace s) = s ∧
      (∀ before after : Bytes, quoteEscaper.Replace s = before ++ 34 :: after →
        trailingBackslashes before % 2 = 1) ∧
      (∀ t : Bytes, quoteEscaper.Replace s = quoteEscaper.Replace t → s = t) ∧
      (quoteEscaper.Replace s).length = s.length + s.count 92 + s.count 34 := by
  refine ⟨?_, ?_, ?_, ?_⟩
  · rw [quoteEscaper_Replace_eq, unescape_escapeSpec]
  · intro before after h
    rw [quoteEscaper_Replace_eq] at h
    exact quote_in_escapeSpec s before after h
  · intro t h
    have := congrArg unescape h
    rwa [quoteEscaper_Replace_eq, quoteEscaper_Replace_eq, unescape_escapeSpec,
      unescape_escapeSpec] at this
  · rw [quoteEscaper_Replace_eq, escapeSpec_length]

/-- C18 at the name `a\"b`: it is escaped to `a\\\"b`, whose double quote is
preceded by three backslashes. -/
theorem quoteEscaper_reversible_witness :
    quoteEscaper.Replace (ascii "a\\\"b") = ascii "a\\\\\\\"b" ∧
      trailingBackslashes (ascii "a\\\\\\") % 2 = 1 ∧
      unescape (quoteEscaper.Replace (ascii "a\\\"b")) = ascii "a\\\"b" :=
  ⟨by decide,
    (quoteEscaper_reversible (ascii "a\\\"b")).2.1 (ascii "a\\\\\\") (ascii "b") (by decide),
    (quoteEscaper_reversible (ascii "a\\\"b")).1⟩

/-! ## Framing, success and failure of `multipartBodyWithJSON` -/

theorem hex_not_special :
    ∀ c ∈ ascii "0123456789abcdef", (ascii "()<>@,;:\\\"/[]?= ").contains c = false := by
  decide

theorem FormDataContentType_of_generated (wr : Writer) (h : isGeneratedBoundary wr.boundary) :
    wr.FormDataContentType = ascii "multipart/form-data; boundary=" ++ wr.boundary := by
  have hany : wr.boundary.any (fun c => (ascii "()<>@,;:\\\"/[]?= ").contains c) = false := by
    rw [List.any_eq_false]
    intro c hc
    rw [hex_not_special c (h.2 c hc)]
    simp
  unfold Writer.FormDataContentType
  rw [hany]
  rfl

theorem multipartBodyWithJSON_success_inv {α : Type} (jsonMarshal : α → Bytes × Option Err)
    (boundary : Bytes) (data : α) (files : List File)
    (hok : (multipartBodyWithJSON jsonMarshal boundary data files).err = none) :
    ∃ json, jsonMarshal data = (json, none) ∧ allReadersSucceed files := by
  rcases hm : jsonMarshal data with ⟨json, _ | e⟩
  · refine ⟨json, rfl, ?_⟩
    intro f hf
    by_contra hne
    exact multipartBodyWithJSON_fails_of_failing_reader jsonMarshal boundary data files
      ⟨f, hf, hne⟩ hok
  · rw [multipartBodyWithJSON_marshal_error jsonMarshal boundary data files json e hm] at hok
    cases hok

/-- C11. On every successful call of `multipartBodyWithJSON` with a boundary
token `B` as the writer generates it, the content type is
`multipart/form-data; boundary=` followed by `B`, and the body is `--B\r\n`
and the `payload_json` part, then each file part introduced by
`\r\n--B\r\n`, then `\r\n--B--\r\n`; every part is its header lines, an empty
line and its content. -/
theorem multipartBodyWithJSON_framing {α : Type} (jsonMarshal : α → Bytes × Option Err)
    (boundary : Bytes) (data : α) (files : List File) (hB : isGeneratedBoundary boundary)
    (hok : (multipartBodyWithJSON jsonMarshal boundary data files).err = none) :
    (multipartBodyWithJSON jsonMarshal boundary data files).contentType =
        ascii "multipart/form-data; boundary=" ++ boundary ∧
      (∃ json, jsonMarshal data = (json, none) ∧
        (multipartBodyWithJSON jsonMarshal boundary data files).body =
          some (ascii "--" ++ boundary ++ ascii "\r\n" ++ (payloadPart json).render ++
            laterParts boundary (filePartsFrom 0 files) ++
            ascii "\r\n--" ++ boundary ++ ascii "--\r\n")) ∧
      laterParts boundary [] = [] ∧
      (∀ (p : Part) (ps : List Part), laterParts boundary (p :: ps) =
        ascii "\r\n--" ++ boundary ++ ascii "\r\n" ++ p.render ++ laterParts boundary ps) ∧
      (∀ p : Part, p.render =
        ascii "Content-Disposition: form-data; name=\"" ++ p.name ++ ascii "\"" ++
          p.dispositionRest ++ ascii "\r\n" ++
          ascii "Content-Type: " ++ p.contentType ++ ascii "\r\n" ++
          ascii "\r\n" ++ p.content) := by
  obtain ⟨json, hjson, hr⟩ :=
    multipartBodyWithJSON_success_inv jsonMarshal boundary data files hok
  rw [multipartBodyWithJSON_success jsonMarshal boundary data files json hjson hr]
  refine ⟨?_, ⟨json, hjson, ?_⟩, rfl, fun _ _ => rfl, fun _ => rfl⟩
  · exact FormDataContentType_of_generated _ hB
  · simp only [frame, expectedParts, List.append_assoc]


/-- C11 for the boundary `sampleBoundary`, the payload `{}` and the two files
of `twoFilesSameName`. -/
theorem multipartBodyWithJSON_framing_witness :
    isGeneratedBoundary sampleBoundary ∧
      (multipartBodyWithJSON marshalRaw sampleBoundary (ascii "\x7b\x7d") twoFilesSameName).err =
        none ∧
      (multipartBodyWithJSON marshalRaw sampleBoundary (ascii "\x7b\x7d")
          twoFilesSameName).contentType =
        ascii "multipart/form-data; boundary=" ++ sampleBoundary :=
  ⟨by decide, by decide,
    (multipartBodyWithJSON_framing marshalRaw sampleBoundary (ascii "\x7b\x7d") twoFilesSameName
      (by decide) (by decide)).1⟩

theorem laterParts_append (boundary : Bytes) (xs ys : List Part) :
    laterParts boundary (xs ++ ys) = laterParts boundary xs ++ laterParts boundary ys := by
  induction xs with
  | nil => rfl
  | cons p ps ih => simp [laterParts, ih]

theorem filePartsFrom_split (k i : Nat) (files : List File) (hi : i < files.length) :
    filePartsFrom k files =
      filePartsFrom k (files.take i) ++
        filePart (k + i) files[i] :: filePartsFrom (k + i + 1) (files.drop (i + 1)) := by
  induction files generalizing k i with
  | nil => simp at hi
  | cons f fs ih =>
    cases i with
    | zero => simp [filePartsFrom]
    | succ j =>
      have hj : j < fs.length := by simpa using hi
      simp only [List.take_succ_cons, filePartsFrom, List.drop_succ_cons, List.cons_append,
        List.getElem_cons_succ]
      rw [ih (k + 1) j hj]
      have e1 : k + 1 + j = k + (j + 1) := by omega
      rw [e1]

theorem closing_starts_with_delimiter (boundary : Bytes) (ps : List Part) :
    ∃ after, laterParts boundary ps ++ (ascii "\r\n--" ++ boundary ++ ascii "--\r\n") =
      ascii "\r\n--" ++ boundary ++ after := by
  cases ps with
  | nil => exact ⟨ascii "--\r\n", by simp [laterParts]⟩
  | cons p ps =>
    exact ⟨ascii "\r\n" ++ p.render ++ laterParts boundary ps ++
      (ascii "\r\n--" ++ boundary ++ ascii "--\r\n"), by simp [laterParts]⟩

theorem multipartBodyWithJSON_body_split {α : Type} (jsonMarshal : α → Bytes × Option Err)
    (boundary : Bytes) (data : α) (files : List File) (json : Bytes)
    (hjson : jsonMarshal data = (json, none)) (hr : allReadersSucceed files)
    (i : Nat) (hi : i < files.length) :
    ∃ after,
      (multipartBodyWithJSON jsonMarshal boundary data files).body =
        some (ascii "--" ++ boundary ++ ascii "\r\n" ++ (payloadPart json).render ++
          laterParts boundary (filePartsFrom 0 (files.take i)) ++
          ascii "\r\n--" ++ boundary ++ ascii "\r\n" ++
          headerLines (fileHeader i files[i]) ++ ascii "\r\n" ++
          files[i].Reader.bytes ++
          ascii "\r\n--" ++ boundary ++ after) := by
  obtain ⟨after, hafter⟩ := closing_starts_with_delimiter boundary
    (filePartsFrom (i + 1) (files.drop (i + 1)))
  refine ⟨after, ?_⟩
  rw [multipartBodyWithJSON_success jsonMarshal boundary data files json hjson hr]
  simp only [frame, expectedParts]
  rw [filePartsFrom_split 0 i files hi, laterParts_append]
  simp only [laterParts, filePart_render, Nat.zero_add, List.append_assoc] at hafter ⊢
  rw [hafter]

theorem isPrefixOf_append_right_false (d x after : Bytes) (hlen : d.length ≤ x.length)
    (h : ¬ d <+: x) : d.isPrefixOf (x ++ after) = false := by
  rw [Bool.eq_false_iff]
  intro hp
  rw [List.isPrefixOf_iff_prefix] at hp
  exact h (List.prefix_of_prefix_length_le hp (List.prefix_append x after) hlen)

theorem upToDelimiter_cons (d : Bytes) (c : Nat) (cs : Bytes) :
    upToDelimiter d (c :: cs) =
      if d.isPrefixOf (c :: cs) then [] else c :: upToDelimiter d cs := rfl

theorem upToDelimiter_of_delimiterFree (d content after : Bytes)
    (hfree : delimiterFree d content) :
    upToDelimiter d (content ++ d ++ after) = content := by
  induction content with
  | nil =>
    cases d with
    | nil => cases after <;> simp [upToDelimiter]
    | cons c ds =>
      have hp : (c :: ds).isPrefixOf (c :: (ds ++ after)) = true := by
        rw [List.isPrefixOf_iff_prefix]
        exact List.prefix_append (c :: ds) after
      rw [List.nil_append, List.cons_append, upToDelimiter_cons, if_pos hp]
  | cons c cs ih =>
    have h0 : ¬ d <+: (c :: cs ++ d) := hfree 0 (by simp)
    have hlen : d.length ≤ (c :: cs ++ d).length := by
      simp only [List.length_append, List.length_cons]
      omega
    have hp : d.isPrefixOf (c :: (cs ++ d ++ after)) = false := by
      have := isPrefixOf_append_right_false d (c :: cs ++ d) after hlen h0
      simpa using this
    have hrest : delimiterFree d cs := by
      intro k hk
      have := hfree (k + 1) (by simpa using hk)
      simpa using this
    rw [List.cons_append, List.cons_append, upToDelimiter_cons, hp, ih hrest]
    rfl

theorem delimiterFree_of_upToDelimiter (d content after : Bytes)
    (h : upToDelimiter d (content ++ d ++ after) = content) : delimiterFree d content := by
  induction content with
  | nil =>
    intro k hk
    simp at hk
  | cons c cs ih =>
    rw [List.cons_append, List.cons_append, upToDelimiter_cons] at h
    by_cases hp : d.isPrefixOf (c :: (cs ++ d ++ after)) = true
    · rw [if_pos hp] at h
      cases h
    · rw [if_neg hp] at h
      have htail : upToDelimiter d (cs ++ d ++ after) = cs := by
        simpa using h
      have hrest := ih htail
      intro k hk
      cases k with
      | zero =>
        intro hpre
        apply hp
        rw [List.isPrefixOf_iff_prefix]
        have : c :: (cs ++ d ++ after) = (c :: cs ++ d) ++ after := by simp
        rw [this]
        exact hpre.trans (List.prefix_append _ _)
      | succ j =>
        have := hrest j (by simpa using hk)
        simpa using this

theorem upToDelimiter_eq_iff (d content after : Bytes) :
    upToDelimiter d (content ++ d ++ after) = content ↔ delimiterFree d content :=
  ⟨delimiterFree_of_upToDelimiter d content after, upToDelimiter_of_delimiterFree d content after⟩

/-- C12 as stated fails: with the boundary `sampleBoundary` and the single
file `boundaryInContentFile`, whose bytes contain `\r\n--B`, the call
succeeds, and the bytes between the empty line after the headers of part
`file0` and the next `\r\n--B` are `ab`, not the bytes of the reader. -/
theorem delimiter_inside_file_content :
    (multipartBodyWithJSON marshalRaw sampleBoundary (ascii "\x7b\x7d")
        [boundaryInContentFile]).err = none ∧
      (multipartBodyWithJSON marshalRaw sampleBoundary (ascii "\x7b\x7d")
          [boundaryInContentFile]).body =
        some (ascii "--" ++ sampleBoundary ++
          ascii ("\r\nContent-Disposition: form-data; name=\"payload_json\"\r\n" ++
            "Content-Type: application/json\r\n\r\n\x7b\x7d\r\n--") ++ sampleBoundary ++
          ascii ("\r\nContent-Disposition: form-data; name=\"file0\"; filename=\"x.bin\"\r\n" ++
            "Content-Type: application/octet-stream\r\n\r\n") ++
          (ascii "ab\r\n--" ++ sampleBoundary ++ ascii "\r\ncd\r\n--" ++ sampleBoundary ++
            ascii "--\r\n")) ∧
      upToDelimiter (ascii "\r\n--" ++ sampleBoundary)
          (ascii "ab\r\n--" ++ sampleBoundary ++ ascii "\r\ncd\r\n--" ++ sampleBoundary ++
            ascii "--\r\n") = ascii "ab" ∧
      boundaryInContentFile.Reader.bytes =
        ascii "ab\r\n--" ++ sampleBoundary ++ ascii "\r\ncd" ∧
      ascii "ab" ≠ boundaryInContentFile.Reader.bytes := by
  decide

/-- C12, amended. On every successful call of `multipartBodyWithJSON`, for
each position `i` of the file list the body is: what precedes part `file<i>`,
the delimiter `\r\n--B\r\n`, the header lines of part `file<i>`, an empty
line, and a remainder that starts with all bytes the reader of file `i`
delivers up to the end of its stream, in order, followed by `\r\n--B`. The
bytes of the remainder up to the next `\r\n--B` are exactly the reader's
bytes if and only if no occurrence of `\r\n--B` begins inside those bytes.
A reader that delivers no byte is included. -/
theorem multipartBodyWithJSON_file_content_until_delimiter {α : Type}
    (jsonMarshal : α → Bytes × Option Err) (boundary : Bytes) (data : α) (files : List File)
    (hok : (multipartBodyWithJSON jsonMarshal boundary data files).err = none)
    (i : Nat) (hi : i < files.length) :
    ∃ json rest,
      jsonMarshal data = (json, none) ∧
      (multipartBodyWithJSON jsonMarshal boundary data files).body =
        some (ascii "--" ++ boundary ++ ascii "\r\n" ++ (payloadPart json).render ++
          laterParts boundary (filePartsFrom 0 (files.take i)) ++
          ascii "\r\n--" ++ boundary ++ ascii "\r\n" ++
          headerLines (fileHeader i files[i]) ++ ascii "\r\n" ++ rest) ∧
      (∃ after, rest = files[i].Reader.bytes ++ (ascii "\r\n--" ++ boundary) ++ after) ∧
      (upToDelimiter (ascii "\r\n--" ++ boundary) rest = files[i].Reader.bytes ↔
        delimiterFree (ascii "\r\n--" ++ boundary) files[i].Reader.bytes) ∧
      files[i].Reader.bytes = files[i].Reader.reads.foldr (fun blk acc => blk ++ acc) [] := by
  obtain ⟨json, hjson, hr⟩ :=
    multipartBodyWithJSON_success_inv jsonMarshal boundary data files hok
  obtain ⟨after, hbody⟩ :=
    multipartBodyWithJSON_body_split jsonMarshal boundary data files json hjson hr i hi
  refine ⟨json, files[i].Reader.bytes ++ (ascii "\r\n--" ++ boundary) ++ after, hjson, ?_,
    ⟨after, rfl⟩, upToDelimiter_eq_iff _ _ after, rfl⟩
  rw [hbody]
  simp only [List.append_assoc]


/-- C12, amended, for the file list `[emptyFile, chunkedFile]` at positions 1
and 0: the reader of `chunkedFile` delivers `hello world` in three blocks,
which are the bytes of part `file1` up to the next `\r\n--XYZ`; the reader of
`emptyFile` delivers nothing, and part `file0` is empty. -/
theorem multipartBodyWithJSON_file_content_until_delimiter_witness :
    (multipartBodyWithJSON marshalRaw (ascii "XYZ") (ascii "\x7b\x7d")
        [emptyFile, chunkedFile]).err = none ∧
      1 < [emptyFile, chunkedFile].length ∧
      (multipartBodyWithJSON marshalRaw (ascii "XYZ") (ascii "\x7b\x7d")
          [emptyFile, chunkedFile]).body =
        some (ascii ("--XYZ\r\nContent-Disposition: form-data; name=\"payload_json\"\r\n" ++
          "Content-Type: application/json\r\n\r\n\x7b\x7d" ++
          "\r\n--XYZ\r\nContent-Disposition: form-data; name=\"file0\"; " ++
          "filename=\"empty.txt\"\r\n" ++
          "Content-Type: application/octet-stream\r\n\r\n" ++
          "\r\n--XYZ\r\nContent-Disposition: form-data; name=\"file1\"; " ++
          "filename=\"b.txt\"\r\n" ++
          "Content-Type: text/plain\r\n\r\n" ++
          "hello world" ++
          "\r\n--XYZ--\r\n")) ∧
      chunkedFile.Reader.bytes = ascii "hello world" ∧
      (∃ json rest,
        marshalRaw (ascii "\x7b\x7d") = (json, none) ∧
        (multipartBodyWithJSON marshalRaw (ascii "XYZ") (ascii "\x7b\x7d")
            [emptyFile, chunkedFile]).body =
          some (ascii "--" ++ ascii "XYZ" ++ ascii "\r\n" ++ (payloadPart json).render ++
            laterParts (ascii "XYZ") (filePartsFrom 0 [emptyFile]) ++
            ascii "\r\n--" ++ ascii "XYZ" ++ ascii "\r\n" ++
            headerLines (fileHeader 1 chunkedFile) ++ ascii "\r\n" ++ rest) ∧
        upToDelimiter (ascii "\r\n--" ++ ascii "XYZ") rest = ascii "hello world") ∧
      (∃ json rest,
        marshalRaw (ascii "\x7b\x7d") = (json, none) ∧
        (multipartBodyWithJSON marshalRaw (ascii "XYZ") (ascii "\x7b\x7d")
            [emptyFile, chunkedFile]).body =
          some (ascii "--" ++ ascii "XYZ" ++ ascii "\r\n" ++ (payloadPart json).render ++
            laterParts (ascii "XYZ") (filePartsFrom 0 []) ++
            ascii "\r\n--" ++ ascii "XYZ" ++ ascii "\r\n" ++
            headerLines (fileHeader 0 emptyFile) ++ ascii "\r\n" ++ rest) ∧
        upToDelimiter (ascii "\r\n--" ++ ascii "XYZ") rest = []) := by
  refine ⟨by decide, by decide, by decide, by decide, ?_, ?_⟩
  · obtain ⟨json, rest, hj, hb, _, hiff, _⟩ :=
      multipartBodyWithJSON_file_content_until_delimiter marshalRaw (ascii "XYZ")
        (ascii "\x7b\x7d") [emptyFile, chunkedFile] (by decide) 1 (by decide)
    exact ⟨json, rest, hj, hb, hiff.mpr (by decide)⟩
  · obtain ⟨json, rest, hj, hb, _, hiff, _⟩ :=
      multipartBodyWithJSON_file_content_until_delimiter marshalRaw (ascii "XYZ")
        (ascii "\x7b\x7d") [emptyFile, chunkedFile] (by decide) 0 (by decide)
    exact ⟨json, rest, hj, hb, hiff.mpr (by decide)⟩


theorem fileLoopRun_fst (writer : Writer) (fileIndex : Nat) (files : List File) :
    (fileLoopRun writer fileIndex files).1 = fileLoop writer fileIndex files := by
  induction files generalizing writer fileIndex with
  | nil => rfl
  | cons file files ih =>
    simp only [fileLoopRun, fileLoop]
    rcases writer.CreatePart (fileHeader fileIndex file) with ⟨writer1, _ | e⟩
    · simp only
      rcases ioCopy writer1 file.Reader with ⟨writer2, n, _ | e⟩
      · exact ih writer2 (fileIndex + 1)
      · rfl
    · rfl

theorem multipartBodyWithJSONRun_fst {α : Type} (jsonMarshal : α → Bytes × Option Err)
    (boundary : Bytes) (data : α) (files : List File) :
    (multipartBodyWithJSONRun jsonMarshal boundary data files).1 =
      multipartBodyWithJSON jsonMarshal boundary data files := by
  unfold multipartBodyWithJSONRun multipartBodyWithJSON
  rcases jsonMarshal data with ⟨payload, _ | e⟩
  · simp only
    rcases (NewWriter [] boundary).CreatePart payloadHeader with ⟨writer1, _ | e⟩
    · simp only
      rcases writer1.partWrite payload with ⟨writer2, n, _ | e⟩
      · simp only
        have h := fileLoopRun_fst writer2 0 files
        rcases hr : fileLoopRun writer2 0 files with ⟨⟨writer3, r⟩, readers⟩
        rw [hr] at h
        simp only at h
        rw [← h]
        cases r with
        | none =>
          simp only
          rcases writer3.Close with ⟨writer4, _ | e⟩ <;> rfl
        | some e => rfl
      · rfl
    · rfl
  · rfl

/-- C15. When `json.Marshal` fails with the error `e`, `multipartBodyWithJSON`
returns the empty content type, a nil body and the error
`failed to marshal payload: %w` wrapping `e`, whatever the file list; when it
returns, `requestBody` is still empty, the multipart writer has created no
part, and no file's `Reader` has been read. -/
theorem multipartBodyWithJSON_marshal_failure {α : Type} (jsonMarshal : α → Bytes × Option Err)
    (boundary : Bytes) (data : α) (files : List File) (p : Bytes) (e : Err)
    (h : jsonMarshal data = (p, some e)) :
    multipartBodyWithJSON jsonMarshal boundary data files =
        { contentType := [], body := none,
          err := some (Err.wrapf "failed to marshal payload: %w" e) } ∧
      (Err.wrapf "failed to marshal payload: %w" e).unwrap = some e ∧
      multipartBodyWithJSONRun jsonMarshal boundary data files =
        ({ contentType := [], body := none,
            err := some (Err.wrapf "failed to marshal payload: %w" e) },
          { w := [], boundary := boundary, lastpart := false }, []) ∧
      (multipartBodyWithJSONRun jsonMarshal boundary data files).1 =
        multipartBodyWithJSON jsonMarshal boundary data files := by
  refine ⟨multipartBodyWithJSON_marshal_error jsonMarshal boundary data files p e h, rfl, ?_,
    multipartBodyWithJSONRun_fst jsonMarshal boundary data files⟩
  unfold multipartBodyWithJSONRun
  rw [h]
  rfl

/-- C15 for a payload that cannot be serialised and the file list
`[pngFileUntyped, brokenFile]`. -/
theorem multipartBodyWithJSON_marshal_failure_witness :
    marshalFails () = ([], some (Err.external "json: unsupported type: chan int")) ∧
      multipartBodyWithJSONRun marshalFails (ascii "XYZ") () [pngFileUntyped, brokenFile] =
        ({ contentType := [], body := none,
            err := some (Err.wrapf "failed to marshal payload: %w"
              (Err.external "json: unsupported type: chan int")) },
          { w := [], boundary := ascii "XYZ", lastpart := false }, []) :=
  ⟨rfl,
    (multipartBodyWithJSON_marshal_failure marshalFails (ascii "XYZ") ()
      [pngFileUntyped, brokenFile] [] (Err.external "json: unsupported type: chan int")
      rfl).2.2.1⟩

theorem fileLoop_error_form (wr : Writer) (i : Nat) (files : List File) (e : Err)
    (h : (fileLoop wr i files).2 = some e) :
    ∃ f ∈ files, ∃ inner, f.Reader.err = some inner ∧
      e = Err.wrapf "failed to copy file: %w" inner := by
  induction files generalizing wr i with
  | nil => simp [fileLoop] at h
  | cons file files ih =>
    rw [fileLoop_step] at h
    cases hfile : file.Reader.err with
    | some inner =>
      rw [hfile] at h
      simp only [Option.some.injEq] at h
      exact ⟨file, List.mem_cons_self _ _, inner, hfile, h.symm⟩
    | none =>
      rw [hfile] at h
      obtain ⟨f, hf, inner, hinner, he⟩ := ih _ _ h
      exact ⟨f, List.mem_cons_of_mem _ hf, inner, hinner, he⟩

theorem multipartBodyWithJSON_error_form {α : Type} (jsonMarshal : α → Bytes × Option Err)
    (boundary : Bytes) (data : α) (files : List File) (e : Err)
    (h : (multipartBodyWithJSON jsonMarshal boundary data files).err = some e) :
    (∃ inner, (jsonMarshal data).2 = some inner ∧
        e = Err.wrapf "failed to marshal payload: %w" inner) ∨
      (∃ f ∈ files, ∃ inner, f.Reader.err = some inner ∧
        e = Err.wrapf "failed to copy file: %w" inner) := by
  rcases hm : jsonMarshal data with ⟨json, _ | inner⟩
  · right
    rw [multipartBodyWithJSON_eq jsonMarshal boundary data files json hm] at h
    rcases hl : fileLoop
      { w := ascii "--" ++ boundary ++ ascii "\r\n" ++ (payloadPart json).render,
        boundary := boundary, lastpart := true } 0 files with ⟨w3, _ | e3⟩
    · rw [hl] at h
      cases h
    · rw [hl] at h
      simp only [Option.some.injEq] at h
      subst h
      exact fileLoop_error_form _ 0 files e3 (by rw [hl])
  · left
    rw [multipartBodyWithJSON_marshal_error jsonMarshal boundary data files json inner hm] at h
    simp only [Option.some.injEq] at h
    exact ⟨inner, rfl, h.symm⟩

/-- C19. `multipartBodyWithJSON` returns an error exactly when `json.Marshal`
fails on the payload or the reader of some file of the list ends with a read
error; the error returned is then `failed to marshal payload: %w` or
`failed to copy file: %w` around that error, never one of the three other
messages; and with a serialisable payload and readers that all succeed the
error is nil. -/
theorem multipartBodyWithJSON_fails_iff {α : Type} (jsonMarshal : α → Bytes × Option Err)
    (boundary : Bytes) (data : α) (files : List File) :
    ((multipartBodyWithJSON jsonMarshal boundary data files).err ≠ none ↔
        ((jsonMarshal data).2 ≠ none ∨ ∃ f ∈ files, f.Reader.err ≠ none)) ∧
      (∀ e, (multipartBodyWithJSON jsonMarshal boundary data files).err = some e →
        (∃ inner, (jsonMarshal data).2 = some inner ∧
            e = Err.wrapf "failed to marshal payload: %w" inner) ∨
          (∃ f ∈ files, ∃ inner, f.Reader.err = some inner ∧
            e = Err.wrapf "failed to copy file: %w" inner)) ∧
      ((jsonMarshal data).2 = none → allReadersSucceed files →
        (multipartBodyWithJSON jsonMarshal boundary data files).err = none) := by
  have hsucc : (jsonMarshal data).2 = none → allReadersSucceed files →
      (multipartBodyWithJSON jsonMarshal boundary data files).err = none := by
    intro hm hr
    have hj : jsonMarshal data = ((jsonMarshal data).1, none) := Prod.ext rfl hm
    rw [multipartBodyWithJSON_success jsonMarshal boundary data files _ hj hr]
  refine ⟨⟨?_, ?_⟩, fun e he =>
    multipartBodyWithJSON_error_form jsonMarshal boundary data files e he, hsucc⟩
  · intro herr
    by_contra hcon
    rw [not_or] at hcon
    have hm : (jsonMarshal data).2 = none := not_not.mp hcon.1
    have hr : allReadersSucceed files := fun f hf => by
      by_contra hne
      exact hcon.2 ⟨f, hf, hne⟩
    exact herr (hsucc hm hr)
  · rintro (hm | hf)
    · rcases hj : jsonMarshal data with ⟨p, _ | inner⟩
      · rw [hj] at hm
        exact absurd rfl hm
      · rw [multipartBodyWithJSON_marshal_error jsonMarshal boundary data files p inner hj]
        simp
    · exact multipartBodyWithJSON_fails_of_failing_reader jsonMarshal boundary data files hf

/-- C19 for the payload `{}` and the two files of `twoFilesSameName`, whose
readers succeed: the error is nil. -/
theorem multipartBodyWithJSON_fails_iff_witness :
    (marshalRaw (ascii "\x7b\x7d")).2 = none ∧ allReadersSucceed twoFilesSameName ∧
      (multipartBodyWithJSON marshalRaw (ascii "XYZ") (ascii "\x7b\x7d") twoFilesSameName).err =
        none :=
  ⟨rfl, by decide,
    (multipartBodyWithJSON_fails_iff marshalRaw (ascii "XYZ") (ascii "\x7b\x7d")
      twoFilesSameName).2.2 rfl (by decide)⟩


end Discord
